import Mathlib

/-!
# Portal client: session bootstrap and authenticated request layer

A shallow embedding of `portal/portalclient.go` and a verification of the
properties its specification states about

* `chainingResolver` (the URL chain resolver),
* `getAttr` / `parseForm` / `parseBody` (the form extractor),
* `needLogin` / `NewClient` (the session bootstrapper),
* `getOrFail` / `postJSONorFail` / `putJSONorFail` (the request layer).

Library code the program calls (`net/url`, `net/http`, `x/net/html`,
`encoding/json`, `crypto/tls`, the cookie jar) is not part of the program. It
enters the embedding as the fields of `Sys`, so every theorem holds for every
behaviour of those libraries and of the remote portal.

Go panics are modelled by `Outcome.panic`; a Go `(value, err)` pair is an
`Except Error value`. Effects (the network and cookie jar, the diagnostic
stream, the exchanges made with the HTTP client) are threaded through `St`.
-/

set_option autoImplicit false

namespace Portal

/-! ## Data model -/

/-- Go `error` values, identified with their message. -/
abbrev Error := String

/-- The type `html.Attribute`. -/
structure Attribute where
  Namespace : String
  Key : String
  Val : String
deriving DecidableEq, Repr

/-- The type `html.NodeType`. -/
inductive NodeType
  | ErrorNode | TextNode | DocumentNode | ElementNode | CommentNode | DoctypeNode
deriving DecidableEq, Repr

/-- The type `html.Node`: node type, `Data` (the tag name of an element), attributes,
and the children in sibling order (`FirstChild`, then `NextSibling` repeatedly). -/
inductive Node where
  | mk (Typ : NodeType) (Data : String) (Attr : List Attribute) (children : List Node)

/-- Field `Type` of `html.Node`. -/
def Node.Typ : Node → NodeType
  | .mk t _ _ _ => t

/-- Field `Data` of `html.Node`. -/
def Node.Data : Node → String
  | .mk _ d _ _ => d

/-- Field `Attr` of `html.Node`. -/
def Node.Attr : Node → List Attribute
  | .mk _ _ a _ => a

/-- The children of a node, first child first. -/
def Node.children : Node → List Node
  | .mk _ _ _ cs => cs

/-- The type `url.Values` (`map[string][]string`) as an association list with
unique keys. -/
abbrev Values := List (String × List String)

/-- Map assignment `m[k] = v`. -/
def Values.set (m : Values) (k : String) (v : List String) : Values :=
  (k, v) :: m.filter (fun p => p.1 ≠ k)

/-- Map lookup `m[k]`, `none` when the key is absent. -/
def Values.get (m : Values) (k : String) : Option (List String) :=
  (m.find? (fun p => p.1 = k)).map Prod.snd

/-- An `io.ReadCloser` holding a response body, given by what reading it to the
end yields: the whole content, or a read error. -/
structure ReadCloser where
  ReadAll : Except Error String

/-- The bytes allowed in a header field name (`validHeaderFieldByte` of
`net/textproto`): letters, digits and the token punctuation of RFC 7230. -/
def validHeaderFieldByte (c : Char) : Bool :=
  (48 ≤ c.toNat && c.toNat ≤ 57) || (65 ≤ c.toNat && c.toNat ≤ 90) ||
  (97 ≤ c.toNat && c.toNat ≤ 122) ||
  [33, 35, 36, 37, 38, 39, 42, 43, 45, 46, 94, 95, 96, 124, 126].contains c.toNat

/-- The rewriting loop of `textproto.CanonicalMIMEHeaderKey`: the first letter and
every letter after a `-` in upper case, every other letter in lower case. `upper`
tells whether the next letter is to be in upper case. -/
def canonicalBytes : Bool → List Char → List Char
  | _, [] => []
  | upper, c :: rest =>
    if upper && 97 ≤ c.toNat && c.toNat ≤ 122 then
      Char.ofNat (c.toNat - 32) :: canonicalBytes false rest
    else if !upper && 65 ≤ c.toNat && c.toNat ≤ 90 then
      Char.ofNat (c.toNat + 32) :: canonicalBytes false rest
    else
      c :: canonicalBytes (c = '-') rest

/-- Function `textproto.CanonicalMIMEHeaderKey`, which every method of
`http.Header` applies to the key it is given: a key with a byte that is not allowed
in a field name is returned unchanged, any other key in canonical letter case. -/
def CanonicalMIMEHeaderKey (s : String) : String :=
  if s.data.all validHeaderFieldByte then String.mk (canonicalBytes true s.data) else s

/-- The type `http.Header` (`map[string][]string`), as the list of its field lines
under the keys they are stored with. The methods below store and look up under
the canonical form of the key they are given, as in `net/http`, which also stores
the names of received header fields in canonical form. -/
abbrev Header := List (String × String)

/-- `Header.Get`: the first value stored under the canonical form of the key, `""`
when there is none. -/
def Header.Get (h : Header) (key : String) : String :=
  match h.find? (fun p => p.1 = CanonicalMIMEHeaderKey key) with
  | some p => p.2
  | none => ""

/-- `Header.Add`: append a value under the canonical form of the key. -/
def Header.Add (h : Header) (key value : String) : Header :=
  h ++ [(CanonicalMIMEHeaderKey key, value)]

/-- `Header.Set`: replace the values under the canonical form of the key by one
value. -/
def Header.Set (h : Header) (key value : String) : Header :=
  h.filter (fun p => p.1 ≠ CanonicalMIMEHeaderKey key) ++ [(CanonicalMIMEHeaderKey key, value)]

/-- `Header.Values`: all values stored under the canonical form of the key, in the
order they were added. -/
def Header.Values (h : Header) (key : String) : List String :=
  (h.filter (fun p => p.1 = CanonicalMIMEHeaderKey key)).map Prod.snd

/-- The fields of `http.Cookie` the program reads. -/
structure Cookie where
  Name : String
  Value : String
deriving DecidableEq, Repr

/-- The body of an outgoing request: none, raw bytes (`bytes.NewReader(j)`), or
form data that `PostForm` sends URL-encoded. -/
inductive ReqBody
  | none
  | bytes (j : String)
  | form (data : Values)
deriving DecidableEq

/-- The fields of `http.Request` the program sets. -/
structure Request where
  Method : String
  URL : String
  Header : Header
  Body : ReqBody
deriving DecidableEq

/-- The fields of `http.Response` the program reads. `StatusCode` is a Go `int`;
it is only compared with 300. -/
structure Response where
  StatusCode : Int
  Header : Header
  Body : ReadCloser

/-- The type `Client`. The `http.Client` and the cookie jar it points to are
mutable objects; their state is part of the world state `σ` in `St`. -/
structure Client where
  subscription : String
deriving DecidableEq, Repr

/-- The libraries and the environment the program runs against. `U` is the type
`url.URL`, `σ` the state of everything outside the program (HTTP client, cookie
jar, remote portal), `P` the type of JSON payloads. -/
structure Sys (U σ P : Type) where
  /-- Function `url.Parse`. -/
  Parse : String → Except Error U
  /-- Method `ResolveReference` of `url.URL`: receiver first, reference second. -/
  ResolveReference : U → U → U
  /-- Method `String` of `url.URL`. -/
  URLString : U → String
  /-- The global `PORTAL`, the parsed portal root. -/
  PORTAL : U
  /-- Function `html.Parse`. -/
  htmlParse : ReadCloser → Except Error Node
  /-- Function `json.Marshal`. -/
  Marshal : P → Except Error String
  /-- Function `tls.X509KeyPair`; only its success matters here. -/
  X509KeyPair : String → String → Except Error Unit
  /-- Function `persistentjar.New` for a jar file: installs the loaded jar. -/
  jarNew : String → σ → Except Error σ
  /-- Method `Cookies` of the client jar. -/
  Cookies : σ → U → List Cookie
  /-- Method `Do` of `http.Client`: the result and the new outside state. -/
  Do : σ → Request → Except Error Response × σ

/-- One call of the HTTP client: the request handed over and what came back. -/
abbrev Exchange := Request × Except Error Response

/-- Program-visible state: the outside world, what was written to `os.Stderr`
(one entry per write), and the exchanges made with the HTTP client, oldest first
(a record kept for the specification; the program never reads it). -/
structure St (σ : Type) where
  world : σ
  stderr : List String
  log : List Exchange

/-- The requests handed to the HTTP client so far, oldest first. -/
def St.sent {σ : Type} (s : St σ) : List Request := s.log.map Prod.fst

/-- How a call ends: it returns a value or it panics. -/
inductive Outcome (α : Type) where
  | ret (a : α)
  | panic (e : Error)

/-- Effectful code: from a state to an outcome and the state it leaves. -/
def Prog (σ α : Type) : Type := St σ → Outcome α × St σ

/-- Return without effect. -/
def Prog.pure {σ α : Type} (a : α) : Prog σ α := fun s => (.ret a, s)

/-- Sequencing; a panic ends the computation and keeps the state reached. -/
def Prog.bind {σ α β : Type} (m : Prog σ α) (f : α → Prog σ β) : Prog σ β := fun s =>
  match m s with
  | (.ret a, s1) => f a s1
  | (.panic e, s1) => (.panic e, s1)

instance {σ : Type} : Monad (Prog σ) where
  pure := Prog.pure
  bind := Prog.bind

/-- The statement `panic(e)`. -/
def panicWith {σ α : Type} (e : Error) : Prog σ α := fun s => (.panic e, s)

/-- A write to `os.Stderr`. -/
def writeStderr {σ : Type} (text : String) : Prog σ Unit := fun s =>
  (.ret (), { s with stderr := s.stderr ++ [text] })

/-! ## The program -/

section Program

variable {U σ P : Type} (sys : Sys U σ P)

/-- Function `fail`: panic when the error is not nil. -/
def fail : Option Error → Prog σ Unit
  | none => Prog.pure ()
  | some e => panicWith e

/-- The idiom `v, err := f(...); fail(err)`. -/
def orFail {α : Type} : Except Error α → Prog σ α
  | .ok a => Prog.pure a
  | .error e => panicWith e

/-- Function `dumpBody`: read the body to the end, fail on a read error, print it. -/
def dumpBody (r : ReadCloser) : Prog σ Unit := do
  let all ← orFail r.ReadAll
  writeStderr (all ++ "\n")

/-- Function `failWithBodyDump`. -/
def failWithBodyDump (e : Option Error) (resp : Response) : Prog σ Unit :=
  match e with
  | none => Prog.pure ()
  | some e => do
    dumpBody resp.Body
    panicWith e

/-- The closure returned by `chainingResolver`: its captured variable `b`. -/
structure Resolver (U : Type) where
  b : U

/-- Function `chainingResolver`. -/
def chainingResolver (base : U) : Resolver U := { b := base }

/-- A call of the closure: the URL returned and the closure afterwards; an
error stands for the panic of `fail(err)`. -/
def Resolver.call (r : Resolver U) (action : String) : Except Error (U × Resolver U) :=
  match sys.Parse action with
  | .error err => .error err
  | .ok a =>
    let a := sys.ResolveReference r.b a
    .ok (a, { b := a })

/-- Function `getAttr`. -/
def getAttr : List Attribute → String → String
  | [], _ => ""
  | a :: rest, name => if a.Key = name then a.Val else getAttr rest name

/-- The captured variables `action` and `params` of `parseForm`. -/
structure FormState where
  action : String
  params : Values
deriving DecidableEq

/-- The body of `recurse` before its loop over the children. -/
def visit (n : Node) (s : FormState) : Except Error FormState := do
  let mut s := s
  if n.Typ = NodeType.ElementNode then
    if n.Data = "form" then
      if s.action ≠ "" then
        throw "found more than one <form>"
      s := { s with action := getAttr n.Attr "action" }
    if n.Data = "input" ∧ getAttr n.Attr "type" = "hidden" then
      s := { s with params := s.params.set (getAttr n.Attr "name") [getAttr n.Attr "value"] }
  return s

mutual
/-- The closure `recurse` of `parseForm`: the error returned and the captured
variables afterwards. -/
def recurse : Node → FormState → Option Error × FormState
  | .mk t d attr cs, s =>
    match visit (.mk t d attr cs) s with
    | .error err => (some err, s)
    | .ok s1 => recurseChildren cs s1
/-- The loop `for c := n.FirstChild; c != nil; c = c.NextSibling` of `recurse`. -/
def recurseChildren : List Node → FormState → Option Error × FormState
  | [], s => (none, s)
  | c :: rest, s =>
    match recurse c s with
    | (some err, s1) => (some err, s1)
    | (none, s1) => recurseChildren rest s1
end

/-- Function `parseForm`: action, parameters and error. -/
def parseForm (r : ReadCloser) : String × Values × Option Error :=
  match sys.htmlParse r with
  | .error err => ("", [], some err)
  | .ok doc =>
    let res := recurse doc { action := "", params := [] }
    (res.2.action, res.2.params, res.1)

/-- Function `parseBody`. -/
def parseBody (b : ReadCloser) : Prog σ (String × Values) :=
  match parseForm sys b with
  | (action, params, err) => do
    fail err
    return (action, params)

/-- Function `http.NewRequest` for the methods used here: it fails when the URL
string does not parse. -/
def NewRequest (method url : String) (body : ReqBody) : Except Error Request :=
  match sys.Parse url with
  | .error err => .error err
  | .ok _ => .ok { Method := method, URL := url, Header := [], Body := body }

/-- Method `Do` of the client, recorded in the log. -/
def hcDo (req : Request) : Prog σ (Except Error Response) := fun s =>
  let r := sys.Do s.world req
  (.ret r.1, { s with world := r.2, log := s.log ++ [(req, r.1)] })

/-- Method `Get` of `http.Client`: a GET request without extra headers. -/
def hcGet (url : String) : Prog σ (Except Error Response) :=
  match NewRequest sys "GET" url ReqBody.none with
  | .error err => Prog.pure (.error err)
  | .ok req => hcDo sys req

/-- Method `PostForm` of `http.Client`: a POST request whose body is the
URL-encoded form data. -/
def hcPostForm (url : String) (data : Values) : Prog σ (Except Error Response) :=
  match NewRequest sys "POST" url (ReqBody.form data) with
  | .error err => Prog.pure (.error err)
  | .ok req =>
    hcDo sys { req with
      Header := req.Header.Set "Content-Type" "application/x-www-form-urlencoded" }

/-- Function `needLogin`. -/
def needLogin (resp : Response) : Prog σ Bool := do
  if resp.StatusCode ≥ 300 then
    failWithBodyDump
      (some ("Login: Expected HTTP 2XX status, got " ++ toString resp.StatusCode)) resp
  return resp.Header.Get "com.sap.cloud.security.login" != ""

/-- The block `action, params = parseBody(resp.Body); actionUrl = resolve(action);
resp, err = c.PostForm(actionUrl.String(), params); fail(err)` that `NewClient`
repeats four times. -/
def loginStep (resolve : Resolver U) (resp : Response) : Prog σ (Resolver U × Response) := do
  let (action, params) ← parseBody sys resp.Body
  let (actionUrl, resolve) ← orFail (resolve.call sys action)
  let resp ← orFail (← hcPostForm sys (sys.URLString actionUrl) params)
  return (resolve, resp)

/-- Installs the jar made by `persistentjar.New` as the jar of the client. -/
def newJar (jarfile : String) : Prog σ Unit := fun s =>
  match sys.jarNew jarfile s.world with
  | .error err => (.panic err, s)
  | .ok w => (.ret (), { s with world := w })

/-- Function `NewClient`. -/
def NewClient (subscription certPEMBlock keyPEMBlock jarfile : String) : Prog σ Client := do
  let _cert ← orFail (sys.X509KeyPair certPEMBlock keyPEMBlock)
  newJar sys jarfile
  let resolve := chainingResolver sys.PORTAL
  let resp ← orFail (← hcGet sys "https://portal.commerce.ondemand.com/")
  if (← needLogin resp) then
    writeStderr "Session expired, logging in...\n"
    let (resolve, resp) ← loginStep sys resolve resp
    let (resolve, resp) ← loginStep sys resolve resp
    let (resolve, resp) ← loginStep sys resolve resp
    let (_, _) ← loginStep sys resolve resp
  return { subscription := subscription }

/-- The call `pc.hc.Jar.Cookies(u)`. -/
def jarCookies (u : U) : Prog σ (List Cookie) := fun s =>
  (.ret (sys.Cookies s.world u), s)

/-- The loop `for _, c := range pc.hc.Jar.Cookies(u)` of `postJSONorFail` and
`putJSONorFail`, acting on the request header. -/
def addXsrf (cookies : List Cookie) (h : Header) : Header :=
  cookies.foldl (fun h c => if c.Name = "XSRF-TOKEN" then h.Add "x-xsrf-token" c.Value else h) h

/-- The error of `json.Marshal` is overwritten unread; `j` is nil when it fails. -/
def marshalled (payload : P) : String :=
  match sys.Marshal payload with
  | .ok j => j
  | .error _ => ""

/-- Method `getOrFail`. -/
def getOrFail (_pc : Client) (u : U) : Prog σ Response := do
  let resp ← orFail (← hcGet sys (sys.URLString u))
  if resp.StatusCode ≥ 300 then
    failWithBodyDump
      (some ("GET " ++ sys.URLString u ++ ": Expected HTTP 2XX status, got "
        ++ toString resp.StatusCode)) resp
  return resp

/-- Method `postJSONorFail`. -/
def postJSONorFail (_pc : Client) (u : U) (payload : P) : Prog σ Response := do
  let j := marshalled sys payload
  let request ← orFail (NewRequest sys "POST" (sys.URLString u) (ReqBody.bytes j))
  let request := { request with Header := request.Header.Add "content-type" "application/json" }
  let cookies ← jarCookies sys u
  let request := { request with Header := addXsrf cookies request.Header }
  let resp ← orFail (← hcDo sys request)
  if resp.StatusCode ≥ 300 then
    failWithBodyDump
      (some ("POST " ++ sys.URLString u ++ ": Expected HTTP 2XX status, got "
        ++ toString resp.StatusCode)) resp
  return resp

/-- Method `putJSONorFail`. -/
def putJSONorFail (_pc : Client) (u : U) (payload : P) : Prog σ Response := do
  let j := marshalled sys payload
  let request ← orFail (NewRequest sys "PUT" (sys.URLString u) (ReqBody.bytes j))
  let request := { request with Header := request.Header.Add "content-type" "application/json" }
  let cookies ← jarCookies sys u
  let request := { request with Header := addXsrf cookies request.Header }
  let resp ← orFail (← hcDo sys request)
  if resp.StatusCode ≥ 300 then
    failWithBodyDump
      (some ("PUT " ++ sys.URLString u ++ ": Expected HTTP 2XX status, got "
        ++ toString resp.StatusCode)) resp
  return resp

end Program

/-! ## Notions used to state the properties -/

section Notions

variable {U σ P : Type} (sys : Sys U σ P)

mutual
/-- The nodes of a tree in depth-first document order (a node before its
children, children in sibling order). -/
def preorder : Node → List Node
  | .mk t d attr cs => .mk t d attr cs :: preorderList cs
/-- Depth-first document order of a list of sibling trees. -/
def preorderList : List Node → List Node
  | [] => []
  | c :: rest => preorder c ++ preorderList rest
end

/-- A form element: an element node whose tag is `form`. -/
def isForm (n : Node) : Bool :=
  n.Typ = NodeType.ElementNode && n.Data = "form"

/-- A hidden input: an element node with tag `input` and `type` attribute `hidden`. -/
def isHiddenInput (n : Node) : Bool :=
  n.Typ = NodeType.ElementNode && n.Data = "input" && getAttr n.Attr "type" = "hidden"

/-- The form elements of a document, in document order. -/
def forms (doc : Node) : List Node := (preorder doc).filter isForm

/-- The hidden inputs of a document, in document order. -/
def hiddenInputs (doc : Node) : List Node := (preorder doc).filter isHiddenInput

/-- The value of the last hidden input of the document, in document order, whose
`name` attribute is `k`, as the one-element list the mapping stores; `none` when
no hidden input has that name. -/
def lastHidden (doc : Node) (k : String) : Option (List String) :=
  ((hiddenInputs doc).reverse.find? (fun n => getAttr n.Attr "name" = k)).map
    (fun n => [getAttr n.Attr "value"])

/-- Visiting a list of nodes in order, stopping at the first error. -/
def visitAll : List Node → FormState → Option Error × FormState
  | [], s => (none, s)
  | n :: rest, s =>
    match visit n s with
    | .error err => (some err, s)
    | .ok s1 => visitAll rest s1

/-- The parameter mapping after the hidden inputs of a node list were stored in
order into `m`. -/
def collect (l : List Node) (m : Values) : Values :=
  (l.filter isHiddenInput).foldl
    (fun m n => m.set (getAttr n.Attr "name") [getAttr n.Attr "value"]) m

/-- Standard reference resolution of the reference string `ref` against `base`:
parse the reference, then `base.ResolveReference`. -/
def resolveRef {U σ P : Type} (sys : Sys U σ P) (base : U) (ref : String) : Except Error U :=
  match sys.Parse ref with
  | .error err => .error err
  | .ok a => .ok (sys.ResolveReference base a)

/-- Passing the references `rs` in order to one resolver: the URLs returned and
the resolver afterwards; an error when a call panics. -/
def Resolver.calls {U σ P : Type} (sys : Sys U σ P) :
    Resolver U → List String → Except Error (List U × Resolver U)
  | r, [] => .ok ([], r)
  | r, a :: rest =>
    match r.call sys a with
    | .error err => .error err
    | .ok (u, r1) =>
      match Resolver.calls sys r1 rest with
      | .error err => .error err
      | .ok (us, r2) => .ok (u :: us, r2)

/-- The request `getOrFail` hands to the client. -/
def getRequest (u : U) : Request :=
  { Method := "GET", URL := sys.URLString u, Header := [], Body := ReqBody.none }

/-- The request `postJSONorFail` (method `POST`) and `putJSONorFail` (method `PUT`)
hand to the client when the jar holds `cookies` for the URL. -/
def jsonRequest (method : String) (u : U) (payload : P) (cookies : List Cookie) : Request :=
  { Method := method, URL := sys.URLString u,
    Header := addXsrf cookies [("Content-Type", "application/json")],
    Body := ReqBody.bytes (marshalled sys payload) }

/-- The status check that ends the three request methods: `if resp.StatusCode >= 300`
then `failWithBodyDump` with an error whose message starts with `what`. -/
def statusCheck (what : String) (resp : Response) : Prog σ Response := do
  if resp.StatusCode ≥ 300 then
    failWithBodyDump
      (some (what ++ ": Expected HTTP 2XX status, got " ++ toString resp.StatusCode)) resp
  return resp

/-- The state after the client answered `req` in state `s`. -/
def afterDo (req : Request) (s : St σ) : St σ :=
  { s with world := (sys.Do s.world req).2, log := s.log ++ [(req, (sys.Do s.world req).1)] }

/-- A request method that hands `req` to the client: panic on a client error,
otherwise the status check. -/
def exchange (what : String) (req : Request) (s : St σ) : Outcome Response × St σ :=
  match (sys.Do s.world req).1 with
  | .error err => (.panic err, afterDo sys req s)
  | .ok resp => statusCheck what resp (afterDo sys req s)

/-- The status contract of a request method `op`: whenever the call made exactly
one exchange and the client answered it with a response `resp`, then with a
status in `[200,299]` the call returns `resp` and prints nothing, and with a
status of 300 or more the call panics, having printed the full response body
(what reading the body to its end yields) to the diagnostic stream. -/
def StatusContract (op : Prog σ Response) : Prop :=
  ∀ (s : St σ) (req : Request) (resp : Response),
    (op s).2.log = s.log ++ [(req, Except.ok resp)] →
      ((200 ≤ resp.StatusCode ∧ resp.StatusCode ≤ 299) →
        (op s).1 = .ret resp ∧ (op s).2.stderr = s.stderr) ∧
      (resp.StatusCode ≥ 300 →
        (∃ e, (op s).1 = .panic e) ∧
        ∀ body, resp.Body.ReadAll = .ok body →
          (op s).2.stderr = s.stderr ++ [body ++ "\n"])

/-- A request carries the XSRF tokens of a cookie list: its `x-xsrf-token` header
has the value `v` exactly when some cookie named `XSRF-TOKEN` has the value `v`,
and when no cookie has that name it has no field whose name is `x-xsrf-token` in
any letter case. -/
def EchoesXsrf (req : Request) (cookies : List Cookie) : Prop :=
  (∀ v, v ∈ req.Header.Values "x-xsrf-token" ↔
    ∃ c ∈ cookies, c.Name = "XSRF-TOKEN" ∧ c.Value = v) ∧
  ((∀ c ∈ cookies, c.Name ≠ "XSRF-TOKEN") →
    ∀ p ∈ req.Header, CanonicalMIMEHeaderKey p.1 ≠ CanonicalMIMEHeaderKey "x-xsrf-token")

/-- The request `PostForm` hands to the client: a POST to `url` whose body is the
URL-encoded form data. -/
def formPost (url : String) (data : Values) : Request :=
  { Method := "POST", URL := url,
    Header := [("Content-Type", "application/x-www-form-urlencoded")],
    Body := ReqBody.form data }

/-- The request of the probe `c.Get("https://portal.commerce.ondemand.com/")`. -/
def probeRequest : Request :=
  { Method := "GET", URL := "https://portal.commerce.ondemand.com/", Header := [],
    Body := ReqBody.none }

/-- The four login steps of `NewClient` and its return. -/
def loginChain (subscription : String) (resolve : Resolver U) (resp : Response) :
    Prog σ Client := do
  let (resolve, resp) ← loginStep sys resolve resp
  let (resolve, resp) ← loginStep sys resolve resp
  let (resolve, resp) ← loginStep sys resolve resp
  let (_, _) ← loginStep sys resolve resp
  return { subscription := subscription }

/-- The state in which `NewClient` sends the probe: the jar is installed. -/
def withJar (w0 : σ) (s : St σ) : St σ := { s with world := w0 }

/-- The state after the line `Session expired, logging in...` was printed. -/
def announced (s : St σ) : St σ :=
  { s with stderr := s.stderr ++ ["Session expired, logging in...\n"] }

/-- Login step succeeds. The form extractor accepts the body of `resp` and yields
an action and the hidden parameters `p`; the action is a well-formed reference and
its standard resolution against `base` is `u`; a request to `u` can be built; and
the client, in outside state `w`, answers the form POST to `u` with body `p` by
the response `resp2`, leaving the outside state `w2`. -/
def LoginStepOK (base : U) (resp : Response) (w : σ) (u : U) (p : Values)
    (resp2 : Response) (w2 : σ) : Prop :=
  ∃ a, parseForm sys resp.Body = (a, p, none) ∧
    resolveRef sys base a = .ok u ∧
    (∃ u2, sys.Parse (sys.URLString u) = .ok u2) ∧
    sys.Do w (formPost (sys.URLString u) p) = (.ok resp2, w2)

/-- Every exchange of the list was answered with a response. -/
def AllAnswered (l : List Exchange) : Prop := ∀ x ∈ l, ∃ r, x.2 = Except.ok r

/-- The exchanges `new` made by a call that ended with outcome `o`: all were
answered, or all but the last were answered, the last one failed, and the call
panicked with the error of the last one. -/
def AnsweredOrAborted {α : Type} (new : List Exchange) (o : Outcome α) : Prop :=
  AllAnswered new ∨
    ∃ pre req e, new = pre ++ [(req, Except.error e)] ∧ AllAnswered pre ∧ o = .panic e

/-- A run from `s` with result `res` made at most `n` exchanges, all of them POSTs,
and a failed exchange ended it. -/
def PostRun {α : Type} (n : Nat) (s : St σ) (res : Outcome α × St σ) : Prop :=
  ∃ new : List Exchange, res.2.log = s.log ++ new ∧ new.length ≤ n ∧
    (∀ x ∈ new, x.1.Method = "POST") ∧ AnsweredOrAborted new res.1

/-- The same environment, except that the status code of every response to a POST
request is replaced by `f` of the outside state, the request and the status. -/
def Sys.withPostStatus (sys : Sys U σ P) (f : σ → Request → Int → Int) : Sys U σ P :=
  { sys with
    Do := fun w req =>
      if req.Method = "POST" then
        (match (sys.Do w req).1 with
          | .ok resp => .ok { resp with StatusCode := f w req resp.StatusCode }
          | .error err => .error err,
         (sys.Do w req).2)
      else sys.Do w req }

/-- Two states with the same outside world, the same diagnostic output and the
same requests sent. -/
def SameEffects (s2 s : St σ) : Prop :=
  s2.world = s.world ∧ s2.stderr = s.stderr ∧ s2.sent = s.sent

/-- Two results with the same effects and outcomes of the same kind: the same
panic, or returned values related by `R`. -/
def Sim {α : Type} (R : α → α → Prop) (r2 r : Outcome α × St σ) : Prop :=
  SameEffects r2.2 r.2 ∧
    ((∃ a2 a, r2.1 = .ret a2 ∧ r.1 = .ret a ∧ R a2 a) ∨
     (∃ e, r2.1 = .panic e ∧ r.1 = .panic e))

end Notions

/-! ## Example data -/

/-- An element node with attributes in the empty namespace. -/
def el (tag : String) (attr : List (String × String)) (cs : List Node) : Node :=
  .mk .ElementNode tag (attr.map fun p => ⟨"", p.1, p.2⟩) cs

/-- A document as `html.Parse` builds it: `html`, `head`, `body`. -/
def page (body : List Node) : Node :=
  .mk .DocumentNode "" [] [el "html" [] [el "head" [] [], el "body" [] body]]

/-- Hidden input `name=value`. -/
def hidden (name value : String) : Node :=
  el "input" [("type", "hidden"), ("name", name), ("value", value)] []

/-- One form with action `/step2` and hidden inputs `a=1`, `b=2`. -/
def docStep2 : Node := page [el "form" [("action", "/step2")] [hidden "a" "1", hidden "b" "2"]]

/-- The form element of `docStep2`. -/
def formStep2 : Node := el "form" [("action", "/step2")] [hidden "a" "1", hidden "b" "2"]

/-- Two forms, the first without an `action` attribute. -/
def docTwoForms : Node := page [el "form" [] [hidden "a" "1"], el "form" [("action", "/x")] []]

/-- One form posting to an identity provider on another host. -/
def docIdp : Node :=
  page [el "form" [("action", "https://idp.example.com/sso")] [hidden "SAMLRequest" "xyz"]]

/-- Two forms that both have an action. -/
def docAmbiguous : Node :=
  page [el "form" [("action", "/login")] [], el "form" [("action", "/register")] []]

/-- No form, one hidden input. -/
def docNoForm : Node := page [hidden "a" "1"]

/-- A small URL type for examples: scheme and authority, then path and query. -/
structure DemoURL where
  origin : String
  path : String
deriving DecidableEq, Repr

/-- Splits the text after `https://` at the first `/`. -/
def splitOrigin : List Char → List Char × List Char
  | [] => ([], [])
  | c :: rest =>
    if c = '/' then ([], c :: rest)
    else ((c :: (splitOrigin rest).1), (splitOrigin rest).2)

/-- Parses absolute `https` URLs and absolute-path references; on these, and
without dot segments, `demoResolve` agrees with RFC 3986 resolution. -/
def demoParse (s : String) : Except Error DemoURL :=
  match s.data with
  | 'h' :: 't' :: 't' :: 'p' :: 's' :: ':' :: '/' :: '/' :: rest =>
    .ok { origin := "https://" ++ String.mk (splitOrigin rest).1,
          path := String.mk (splitOrigin rest).2 }
  | '/' :: _ => .ok { origin := "", path := s }
  | _ => .error "unsupported URL"

/-- Reference resolution for `DemoURL`. -/
def demoResolve (base ref : DemoURL) : DemoURL :=
  if ref.origin = "" then { origin := base.origin, path := ref.path } else ref

/-- The body text of `docStep2`. -/
def htmlStep2 : String :=
  "<form action=/step2><input type=hidden name=a value=1><input type=hidden name=b value=2></form>"

/-- The body text of `docTwoForms`. -/
def htmlTwoForms : String :=
  "<form><input type=hidden name=a value=1></form><form action=/x></form>"

/-- The body text of `docIdp`. -/
def htmlIdp : String :=
  "<form action=https://idp.example.com/sso><input type=hidden name=SAMLRequest value=xyz></form>"

/-- The body text of `docAmbiguous`. -/
def htmlAmbiguous : String := "<form action=/login></form><form action=/register></form>"

/-- The body text of `docNoForm`. -/
def htmlNoForm : String := "<input type=hidden name=a value=1>"

/-- A parser for the example bodies; any other text becomes a text node. -/
def demoHtmlParse (r : ReadCloser) : Except Error Node :=
  match r.ReadAll with
  | .error err => .error err
  | .ok text =>
    if text = htmlStep2 then .ok docStep2
    else if text = htmlTwoForms then .ok docTwoForms
    else if text = htmlNoForm then .ok docNoForm
    else if text = htmlIdp then .ok docIdp
    else if text = htmlAmbiguous then .ok docAmbiguous
    else .ok (page [.mk .TextNode text [] []])

/-- An example environment: the HTTP client answers the `n`-th call with the
`n`-th entry of `script`, and the jar holds `cookies` for every URL. The outside
state is the number of calls answered. -/
def demoSys (script : List (Except Error Response)) (cookies : List Cookie) :
    Sys DemoURL Nat String where
  Parse := demoParse
  ResolveReference := demoResolve
  URLString := fun u => u.origin ++ u.path
  PORTAL := { origin := "https://portal.commerce.ondemand.com", path := "/" }
  htmlParse := demoHtmlParse
  Marshal := fun p => .ok p
  X509KeyPair := fun _ _ => .ok ()
  jarNew := fun _ w => .ok w
  Cookies := fun _ _ => cookies
  Do := fun n _ => (script.getD n (.error "connection refused"), n + 1)

/-- A readable body with the given text. -/
def bodyOf (text : String) : ReadCloser := { ReadAll := .ok text }

/-- A response with the given status and body and no header. -/
def respOf (status : Int) (text : String) : Response :=
  { StatusCode := status, Header := [], Body := bodyOf text }

/-- The initial state of the examples: nothing sent, nothing printed. -/
def s0 : St Nat := { world := 0, stderr := [], log := [] }

/-- An API URL of the portal. -/
def apiURL : DemoURL :=
  { origin := "https://portal.commerce.ondemand.com", path := "/v2/subscriptions/demo/builds/" }

/-- A client of the examples. -/
def demoClient : Client := { subscription := "demo" }

/-- A jar with an `XSRF-TOKEN` cookie of value `tok123` and a session cookie. -/
def xsrfJar : List Cookie :=
  [{ Name := "JSESSIONID", Value := "abc" }, { Name := "XSRF-TOKEN", Value := "tok123" }]

/-- A probe response that asks for a login: status 200, the login header under
the name `net/http` stores it with, and the page of `docIdp`. -/
def probeLogin : Response :=
  { StatusCode := 200, Header := [("Com.sap.cloud.security.login", "login-request")],
    Body := bodyOf htmlIdp }

/-- A probe response that asks for a login with a page of two forms. -/
def probeAmbiguous : Response :=
  { StatusCode := 200, Header := [("Com.sap.cloud.security.login", "login-request")],
    Body := bodyOf htmlAmbiguous }

/-- An environment whose login chain answers every form POST with status 200. -/
def loginScript : List (Except Error Response) :=
  [.ok probeLogin, .ok (respOf 200 htmlStep2), .ok (respOf 200 htmlStep2),
   .ok (respOf 200 htmlStep2), .ok (respOf 200 "welcome")]

/-- The same chain, every form POST answered with a status outside the 2xx range. -/
def errorStatusScript : List (Except Error Response) :=
  [.ok probeLogin, .ok (respOf 500 htmlStep2), .ok (respOf 404 htmlStep2),
   .ok (respOf 401 htmlStep2), .ok (respOf 503 "unavailable")]

/-- A chain in which the second form POST gets no response. -/
def failingScript : List (Except Error Response) :=
  [.ok probeLogin, .ok (respOf 500 htmlStep2), .error "connection reset"]

/-- The first form POST of the example chains. -/
def postIdp : Request :=
  { Method := "POST", URL := "https://idp.example.com/sso",
    Header := [("Content-Type", "application/x-www-form-urlencoded")],
    Body := ReqBody.form [("SAMLRequest", ["xyz"])] }

/-- The later form POSTs of the example chains: `/step2` on the host of the first. -/
def postStep2 : Request :=
  { Method := "POST", URL := "https://idp.example.com/step2",
    Header := [("Content-Type", "application/x-www-form-urlencoded")],
    Body := ReqBody.form [("b", ["2"]), ("a", ["1"])] }

section Proofs

variable {U σ P : Type} (sys : Sys U σ P)

/-! ## Header keys -/

theorem canonical_content_type : CanonicalMIMEHeaderKey "content-type" = "Content-Type" := by
  decide

theorem canonical_content_type_fixed : CanonicalMIMEHeaderKey "Content-Type" = "Content-Type" := by
  decide

theorem canonical_xsrf_token : CanonicalMIMEHeaderKey "x-xsrf-token" = "X-Xsrf-Token" := by
  decide

theorem canonical_login_header :
    CanonicalMIMEHeaderKey "com.sap.cloud.security.login" = "Com.sap.cloud.security.login" := by
  decide

/-! ## Form extractor: lemmas -/

theorem visit_eq (n : Node) (s : FormState) :
    visit n s =
      if n.Typ = NodeType.ElementNode ∧ n.Data = "form" ∧ s.action ≠ "" then
        .error "found more than one <form>"
      else
        .ok { action := if isForm n then getAttr n.Attr "action" else s.action,
              params := if isHiddenInput n then
                  s.params.set (getAttr n.Attr "name") [getAttr n.Attr "value"]
                else s.params } := by
  unfold visit isForm isHiddenInput
  obtain ⟨act, prm⟩ := s
  by_cases h1 : n.Typ = NodeType.ElementNode <;> by_cases h2 : n.Data = "form" <;>
    by_cases h3 : act = "" <;> by_cases h4 : n.Data = "input" <;>
    by_cases h5 : getAttr n.Attr "type" = "hidden" <;>
    simp [h1, h2, h3, h4, h5, pure, Except.pure, bind, Except.bind, throw, throwThe,
      MonadExceptOf.throw]

theorem visitAll_append (a b : List Node) (s : FormState) :
    visitAll (a ++ b) s =
      match visitAll a s with
      | (some err, s1) => (some err, s1)
      | (none, s1) => visitAll b s1 := by
  induction a generalizing s with
  | nil => simp [visitAll]
  | cons n rest ih =>
    simp only [List.cons_append, visitAll]
    cases visit n s with
    | error err => simp
    | ok s1 => simpa using ih s1

mutual
theorem recurse_eq_visitAll : ∀ (n : Node) (s : FormState),
    recurse n s = visitAll (preorder n) s
  | .mk t d attr cs, s => by
    rw [recurse, preorder, visitAll]
    cases visit (.mk t d attr cs) s with
    | error err => rfl
    | ok s1 => exact recurseChildren_eq_visitAll cs s1
theorem recurseChildren_eq_visitAll : ∀ (cs : List Node) (s : FormState),
    recurseChildren cs s = visitAll (preorderList cs) s
  | [], s => by rw [recurseChildren, preorderList, visitAll]
  | c :: rest, s => by
    rw [recurseChildren, preorderList, visitAll_append, recurse_eq_visitAll c s]
    rcases visitAll (preorder c) s with ⟨_ | err, s1⟩
    · exact recurseChildren_eq_visitAll rest s1
    · rfl
end

theorem collect_nil (m : Values) : collect [] m = m := rfl

theorem collect_cons (n : Node) (l : List Node) (m : Values) :
    collect (n :: l) m =
      collect l (if isHiddenInput n then
        m.set (getAttr n.Attr "name") [getAttr n.Attr "value"] else m) := by
  unfold collect
  by_cases h : isHiddenInput n = true <;> simp [List.filter_cons, h]

theorem find?_filter_of_imp {α : Type} (p q : α → Bool) (l : List α)
    (h : ∀ x, q x = true → p x = true) :
    (l.filter p).find? q = l.find? q := by
  induction l with
  | nil => rfl
  | cons x rest ih =>
    by_cases hq : q x = true
    · simp [List.filter_cons, h x hq, List.find?_cons, hq]
    · by_cases hp : p x = true
      · simp [List.filter_cons, hp, List.find?_cons, hq, ih]
      · simp [List.filter_cons, hp, List.find?_cons, hq, ih]

theorem Values.get_set (m : Values) (k k2 : String) (v : List String) :
    (m.set k v).get k2 = if k2 = k then some v else m.get k2 := by
  unfold Values.set Values.get
  by_cases h : k2 = k
  · subst h; simp [List.find?_cons]
  · have h2 : ¬ k = k2 := fun e => h e.symm
    rw [List.find?_cons]
    simp only [h, h2, decide_False, if_false]
    rw [find?_filter_of_imp]
    intro x hx
    have hx2 : x.1 = k2 := by simpa using hx
    simp [hx2, h]

theorem collect_get (l : List Node) (m : Values) (k : String) :
    (collect l m).get k =
      match ((l.filter isHiddenInput).reverse.find? (fun n => getAttr n.Attr "name" = k)) with
      | some n => some [getAttr n.Attr "value"]
      | none => m.get k := by
  induction l generalizing m with
  | nil => simp [collect]
  | cons n rest ih =>
    rw [collect_cons, ih]
    by_cases hn : isHiddenInput n = true
    · simp only [hn, if_true, List.filter_cons, List.reverse_cons, List.find?_append]
      cases (List.filter isHiddenInput rest).reverse.find?
          (fun n => decide (getAttr n.Attr "name" = k)) with
      | some x => simp
      | none =>
        by_cases hk : getAttr n.Attr "name" = k
        · simp [Values.get_set, hk]
        · have hk2 : ¬ k = getAttr n.Attr "name" := fun e => hk e.symm
          simp [Values.get_set, hk, hk2]
    · simp [hn, List.filter_cons]

theorem visitAll_noForm (l : List Node) (s : FormState) (h : l.filter isForm = []) :
    visitAll l s = (none, { action := s.action, params := collect l s.params }) := by
  induction l generalizing s with
  | nil => rfl
  | cons n rest ih =>
    have hn : isForm n = false := by
      by_contra hc
      simp [List.filter_cons, hc] at h
    have hr : rest.filter isForm = [] := by simpa [List.filter_cons, hn] using h
    have hv : ¬ (n.Typ = NodeType.ElementNode ∧ n.Data = "form" ∧ s.action ≠ "") := by
      intro hc
      simp [isForm, hc.1, hc.2.1] at hn
    rw [visitAll, visit_eq, if_neg hv]
    simp only [hn]
    rw [ih _ hr, collect_cons]
    simp

theorem visitAll_oneForm (l : List Node) (f : Node) (s : FormState)
    (h : l.filter isForm = [f]) (hs : s.action = "") :
    visitAll l s =
      (none, { action := getAttr f.Attr "action", params := collect l s.params }) := by
  induction l generalizing s with
  | nil => simp at h
  | cons n rest ih =>
    have hv : ¬ (n.Typ = NodeType.ElementNode ∧ n.Data = "form" ∧ s.action ≠ "") := by
      intro hc
      exact hc.2.2 hs
    rw [visitAll, visit_eq, if_neg hv]
    by_cases hn : isForm n = true
    · simp only [List.filter_cons, hn, if_true, List.cons.injEq] at h
      obtain ⟨rfl, hr⟩ := h
      simp only [hn, if_true]
      rw [visitAll_noForm _ _ hr, collect_cons]
    · have hn2 : isForm n = false := by simpa using hn
      simp only [List.filter_cons, hn2] at h
      simp only [hn2]
      rw [ih _ (by simpa using h) (by simpa using hs), collect_cons]

theorem visitAll_second_form (l : List Node) (s : FormState)
    (hs : s.action ≠ "") (h : l.filter isForm ≠ []) :
    (visitAll l s).1 = some "found more than one <form>" := by
  induction l generalizing s with
  | nil => simp at h
  | cons n rest ih =>
    rw [visitAll, visit_eq]
    by_cases hn : isForm n = true
    · have hv : n.Typ = NodeType.ElementNode ∧ n.Data = "form" ∧ s.action ≠ "" := by
        simp only [isForm, Bool.and_eq_true, decide_eq_true_eq] at hn
        exact ⟨hn.1, hn.2, hs⟩
      rw [if_pos hv]
    · have hn2 : isForm n = false := by simpa using hn
      have hv : ¬ (n.Typ = NodeType.ElementNode ∧ n.Data = "form" ∧ s.action ≠ "") := by
        intro hc
        simp [isForm, hc.1, hc.2.1] at hn2
      rw [if_neg hv]
      simp only [hn2]
      apply ih
      · simpa using hs
      · simpa [List.filter_cons, hn2] using h

/-- When the first form of a document has a non-empty action, a second form makes
`parseForm` fail with the ambiguous-form error. -/
theorem parseForm_more_forms_after_action {U σ P : Type} (sys : Sys U σ P)
    (r : ReadCloser) (doc f g : Node) (rest : List Node)
    (hdoc : sys.htmlParse r = .ok doc) (hforms : forms doc = f :: g :: rest)
    (hact : getAttr f.Attr "action" ≠ "") :
    (parseForm sys r).2.2 = some "found more than one <form>" := by
  have key : ∀ (l : List Node) (s : FormState), s.action = "" →
      l.filter isForm = f :: g :: rest →
      (visitAll l s).1 = some "found more than one <form>" := by
    intro l
    induction l with
    | nil => intro s _ h; simp at h
    | cons n tl ih =>
      intro s hs h
      have hv : ¬ (n.Typ = NodeType.ElementNode ∧ n.Data = "form" ∧ s.action ≠ "") :=
        fun hc => hc.2.2 hs
      rw [visitAll, visit_eq, if_neg hv]
      by_cases hn : isForm n = true
      · simp only [List.filter_cons, hn, if_true, List.cons.injEq] at h
        obtain ⟨rfl, htl⟩ := h
        simp only [hn, if_true]
        exact visitAll_second_form _ _ hact (by simp [htl])
      · have hn2 : isForm n = false := by simpa using hn
        simp only [hn2]
        exact ih _ (by simpa using hs) (by simpa [List.filter_cons, hn2] using h)
  simp only [parseForm, hdoc, recurse_eq_visitAll]
  exact key _ _ rfl hforms

/-! ## Form extractor: the claims -/

/-- C2: for a parsed document with exactly one form element `f`, `parseForm` returns
no error and the `action` attribute of `f` (`""` when absent), and a mapping that
has a key exactly for the `name` attributes of the hidden inputs of the document,
each mapped to the one value of the last hidden input of that name in depth-first
document order. -/
theorem parseForm_single_form {U σ P : Type} (sys : Sys U σ P)
    (r : ReadCloser) (doc f : Node)
    (hdoc : sys.htmlParse r = .ok doc) (hone : forms doc = [f]) :
    ∃ params : Values,
      parseForm sys r = (getAttr f.Attr "action", params, none) ∧
      (∀ k, params.get k = lastHidden doc k) ∧
      (∀ k, (params.get k).isSome ↔ ∃ n ∈ hiddenInputs doc, getAttr n.Attr "name" = k) := by
  have hget : ∀ k, (collect (preorder doc) []).get k = lastHidden doc k := by
    intro k
    rw [collect_get, lastHidden, hiddenInputs]
    cases ((preorder doc).filter isHiddenInput).reverse.find?
      (fun n => decide (getAttr n.Attr "name" = k)) <;> simp [Values.get]
  refine ⟨collect (preorder doc) [], ?_, hget, ?_⟩
  · simp only [parseForm, hdoc, recurse_eq_visitAll]
    rw [visitAll_oneForm _ f _ hone rfl]
  · intro k
    rw [hget, lastHidden]
    simp [List.find?_isSome]

/-- C2, at the document of the specification: action `/step2`, hidden `a=1`, `b=2`. -/
theorem parseForm_single_form_witness :
    (demoSys [] []).htmlParse (bodyOf htmlStep2) = .ok docStep2 ∧
    forms docStep2 = [formStep2] ∧
    (∃ params : Values,
      parseForm (demoSys [] []) (bodyOf htmlStep2) = ("/step2", params, none) ∧
      (∀ k, params.get k = lastHidden docStep2 k) ∧
      (∀ k, (params.get k).isSome ↔ ∃ n ∈ hiddenInputs docStep2, getAttr n.Attr "name" = k)) ∧
    lastHidden docStep2 "a" = some ["1"] ∧ lastHidden docStep2 "b" = some ["2"] :=
  ⟨by rfl, by rfl,
    parseForm_single_form (demoSys [] []) (bodyOf htmlStep2) docStep2 formStep2 (by rfl) (by rfl),
    by decide, by decide⟩

/-- C3, evaluated where it fails: a document with two form elements, the first
without `action`, is accepted; `parseForm` returns the second form's action and
no error. -/
theorem parseForm_two_forms_first_action_empty :
    (demoSys [] []).htmlParse (bodyOf htmlTwoForms) = .ok docTwoForms ∧
    (forms docTwoForms).length = 2 ∧
    parseForm (demoSys [] []) (bodyOf htmlTwoForms) = ("/x", [("a", ["1"])], none) :=
  ⟨by rfl, by decide, by decide⟩

/-- C4 fails as stated: a document without a form element but with a hidden input
yields a non-empty mapping. -/
theorem hidden_input_outside_form_is_collected :
    (demoSys [] []).htmlParse (bodyOf htmlNoForm) = .ok docNoForm ∧
    forms docNoForm = [] ∧
    parseForm (demoSys [] []) (bodyOf htmlNoForm) = ("", [("a", ["1"])], none) ∧
    (parseForm (demoSys [] []) (bodyOf htmlNoForm)).2.1 ≠ [] :=
  ⟨by rfl, by rfl, by decide, by decide⟩

/-- C4 amended: for a parsed document without a form element, `parseForm` returns
no error, the empty action, and the mapping of the document's hidden inputs (last
value wins); the mapping is empty when the document has no hidden input. -/
theorem parseForm_no_form {U σ P : Type} (sys : Sys U σ P)
    (r : ReadCloser) (doc : Node)
    (hdoc : sys.htmlParse r = .ok doc) (hnone : forms doc = []) :
    ∃ params : Values,
      parseForm sys r = ("", params, none) ∧
      (∀ k, params.get k = lastHidden doc k) ∧
      (hiddenInputs doc = [] → params = []) := by
  refine ⟨collect (preorder doc) [], ?_, ?_, ?_⟩
  · simp only [parseForm, hdoc, recurse_eq_visitAll]
    rw [visitAll_noForm _ _ hnone]
  · intro k
    rw [collect_get, lastHidden, hiddenInputs]
    cases ((preorder doc).filter isHiddenInput).reverse.find?
      (fun n => decide (getAttr n.Attr "name" = k)) <;> simp [Values.get]
  · intro h
    simp only [hiddenInputs] at h
    simp [collect, h]

/-- C4 amended, on a page whose body is plain text. -/
theorem parseForm_no_form_witness :
    (demoSys [] []).htmlParse (bodyOf "hello") = .ok (page [.mk .TextNode "hello" [] []]) ∧
    forms (page [.mk .TextNode "hello" [] []]) = [] ∧
    ∃ params : Values,
      parseForm (demoSys [] []) (bodyOf "hello") = ("", params, none) ∧
      (∀ k, params.get k = lastHidden (page [.mk .TextNode "hello" [] []]) k) ∧
      (hiddenInputs (page [.mk .TextNode "hello" [] []]) = [] → params = []) :=
  ⟨by rfl, by rfl,
    parseForm_no_form (demoSys [] []) (bodyOf "hello") _ (by rfl) (by rfl)⟩

/-! ## URL chain resolver -/

/-- C1: for every base `B` and every sequence `rs` of well-formed references passed
in order to one resolver made by `chainingResolver B`, all calls return; the `k`-th
URL returned is the standard resolution of the `k`-th reference against the URL
returned by the call before (against `B` for the first call), and the resolver's
base afterwards is the last URL returned. -/
theorem chainingResolver_chains {U σ P : Type} (sys : Sys U σ P) (B : U) (rs : List String)
    (hwf : ∀ r ∈ rs, ∃ a, sys.Parse r = .ok a) :
    ∃ us : List U,
      (chainingResolver B).calls sys rs
        = .ok (us, { b := (B :: us).getLast (List.cons_ne_nil B us) }) ∧
      us.length = rs.length ∧
      ∀ (k : Nat) (r : String), rs[k]? = some r →
        ∃ prev u, (B :: us)[k]? = some prev ∧ us[k]? = some u ∧
          resolveRef sys prev r = .ok u := by
  unfold chainingResolver
  induction rs generalizing B with
  | nil => exact ⟨[], rfl, rfl, by simp⟩
  | cons a rest ih =>
    obtain ⟨pa, hpa⟩ := hwf a (List.mem_cons_self a rest)
    obtain ⟨us, hcalls, hlen, hk⟩ :=
      ih (sys.ResolveReference B pa) (fun r hr => hwf r (List.mem_cons_of_mem a hr))
    refine ⟨sys.ResolveReference B pa :: us, ?_, by simp [hlen], ?_⟩
    · simp only [Resolver.calls, Resolver.call, hpa, hcalls, List.getLast_cons_cons]
    · intro k r hr
      cases k with
      | zero =>
        simp only [List.getElem?_cons_zero, Option.some.injEq] at hr
        subst hr
        exact ⟨B, sys.ResolveReference B pa, by simp, by simp, by simp [resolveRef, hpa]⟩
      | succ k =>
        simp only [List.getElem?_cons_succ] at hr
        obtain ⟨prev, u, h1, h2, h3⟩ := hk k r hr
        exact ⟨prev, u, by simpa using h1, by simpa using h2, h3⟩

/-- C1 at three references: a path, an absolute URL on another host, a path; the
last is resolved against the other host, not against the portal root. -/
theorem chainingResolver_chains_witness :
    (∀ r ∈ ["/login", "https://idp.example.com/sso", "/consent"],
      ∃ a, (demoSys [] []).Parse r = .ok a) ∧
    (∃ us : List DemoURL,
      (chainingResolver (demoSys [] []).PORTAL).calls (demoSys [] [])
          ["/login", "https://idp.example.com/sso", "/consent"]
        = .ok (us, Resolver.mk (((demoSys [] []).PORTAL :: us).getLast
            (List.cons_ne_nil (demoSys [] []).PORTAL us))) ∧
      us.length = ["/login", "https://idp.example.com/sso", "/consent"].length ∧
      ∀ (k : Nat) (r : String),
        ["/login", "https://idp.example.com/sso", "/consent"][k]? = some r →
        ∃ prev u, ((demoSys [] []).PORTAL :: us)[k]? = some prev ∧ us[k]? = some u ∧
          resolveRef (demoSys [] []) prev r = .ok u) ∧
    (((chainingResolver (demoSys [] []).PORTAL).calls (demoSys [] [])
        ["/login", "https://idp.example.com/sso", "/consent"]).toOption.map
          (fun p => p.1.map (demoSys [] []).URLString))
      = some ["https://portal.commerce.ondemand.com/login", "https://idp.example.com/sso",
          "https://idp.example.com/consent"] :=
  have hwf : ∀ r ∈ ["/login", "https://idp.example.com/sso", "/consent"],
      ∃ a, (demoSys [] []).Parse r = .ok a := by
    intro r hr
    simp only [List.mem_cons, List.mem_singleton, List.not_mem_nil, or_false] at hr
    rcases hr with rfl | rfl | rfl <;> exact ⟨_, rfl⟩
  ⟨hwf, chainingResolver_chains (demoSys [] []) _ _ hwf, by decide⟩

/-! ## Request layer: lemmas -/

theorem Prog.bind_apply {α β : Type} (m : Prog σ α) (f : α → Prog σ β) (s : St σ) :
    (m >>= f) s =
      match m s with
      | (.ret a, s1) => f a s1
      | (.panic e, s1) => (.panic e, s1) := rfl

theorem Prog.pure_apply {α : Type} (a : α) (s : St σ) :
    (Pure.pure a : Prog σ α) s = (.ret a, s) := rfl

/-- What `failWithBodyDump` does with a non-nil error: print the body and panic
with the error, or panic with the read error when the body cannot be read. -/
theorem failWithBodyDump_some (e : Error) (resp : Response) (s : St σ) :
    (failWithBodyDump (some e) resp : Prog σ Unit) s =
      match resp.Body.ReadAll with
      | .ok body => (.panic e, { s with stderr := s.stderr ++ [body ++ "\n"] })
      | .error err => (.panic err, s) := by
  simp only [failWithBodyDump, dumpBody, Prog.bind_apply]
  cases resp.Body.ReadAll <;> rfl

theorem statusCheck_apply (what : String) (resp : Response) (s : St σ) :
    (statusCheck what resp : Prog σ Response) s =
      if resp.StatusCode ≥ 300 then
        match resp.Body.ReadAll with
        | .ok body =>
          (.panic (what ++ ": Expected HTTP 2XX status, got " ++ toString resp.StatusCode),
            { s with stderr := s.stderr ++ [body ++ "\n"] })
        | .error err => (.panic err, s)
      else (.ret resp, s) := by
  unfold statusCheck
  by_cases h : resp.StatusCode ≥ 300
  · simp only [h, if_true, Prog.bind_apply, failWithBodyDump_some]
    cases resp.Body.ReadAll <;> rfl
  · simp only [h, if_false, Prog.bind_apply, Prog.pure_apply]

theorem getOrFail_apply (pc : Client) (u : U) (s : St σ) :
    getOrFail sys pc u s =
      match sys.Parse (sys.URLString u) with
      | .error err => (.panic err, s)
      | .ok _ => exchange sys ("GET " ++ sys.URLString u) (getRequest sys u) s := by
  have h : getOrFail sys pc u = (do
      let resp ← orFail (← hcGet sys (sys.URLString u))
      statusCheck ("GET " ++ sys.URLString u) resp) := by
    unfold getOrFail statusCheck
    simp only [String.append_assoc]
  rw [h]
  simp only [hcGet, NewRequest, Prog.bind_apply, exchange, getRequest]
  cases sys.Parse (sys.URLString u) with
  | error err => rfl
  | ok u2 =>
    simp only [hcDo, afterDo]
    cases (sys.Do s.world _).1 <;> rfl

theorem postJSONorFail_apply (pc : Client) (u : U) (payload : P) (s : St σ) :
    postJSONorFail sys pc u payload s =
      match sys.Parse (sys.URLString u) with
      | .error err => (.panic err, s)
      | .ok _ =>
        exchange sys ("POST " ++ sys.URLString u)
          (jsonRequest sys "POST" u payload (sys.Cookies s.world u)) s := by
  have h : postJSONorFail sys pc u payload = (do
      let j := marshalled sys payload
      let request ← orFail (NewRequest sys "POST" (sys.URLString u) (ReqBody.bytes j))
      let request :=
        { request with Header := request.Header.Add "content-type" "application/json" }
      let cookies ← jarCookies sys u
      let request := { request with Header := addXsrf cookies request.Header }
      let resp ← orFail (← hcDo sys request)
      statusCheck ("POST " ++ sys.URLString u) resp) := by
    unfold postJSONorFail statusCheck
    simp only [String.append_assoc]
  rw [h]
  simp only [NewRequest, Prog.bind_apply, exchange, jsonRequest]
  cases sys.Parse (sys.URLString u) with
  | error err => rfl
  | ok u2 =>
    simp only [hcDo, afterDo, orFail, Prog.pure, jarCookies, Header.Add, List.nil_append,
      canonical_content_type]
    cases (sys.Do s.world _).1 <;> rfl

theorem putJSONorFail_apply (pc : Client) (u : U) (payload : P) (s : St σ) :
    putJSONorFail sys pc u payload s =
      match sys.Parse (sys.URLString u) with
      | .error err => (.panic err, s)
      | .ok _ =>
        exchange sys ("PUT " ++ sys.URLString u)
          (jsonRequest sys "PUT" u payload (sys.Cookies s.world u)) s := by
  have h : putJSONorFail sys pc u payload = (do
      let j := marshalled sys payload
      let request ← orFail (NewRequest sys "PUT" (sys.URLString u) (ReqBody.bytes j))
      let request :=
        { request with Header := request.Header.Add "content-type" "application/json" }
      let cookies ← jarCookies sys u
      let request := { request with Header := addXsrf cookies request.Header }
      let resp ← orFail (← hcDo sys request)
      statusCheck ("PUT " ++ sys.URLString u) resp) := by
    unfold putJSONorFail statusCheck
    simp only [String.append_assoc]
  rw [h]
  simp only [NewRequest, Prog.bind_apply, exchange, jsonRequest]
  cases sys.Parse (sys.URLString u) with
  | error err => rfl
  | ok u2 =>
    simp only [hcDo, afterDo, orFail, Prog.pure, jarCookies, Header.Add, List.nil_append,
      canonical_content_type]
    cases (sys.Do s.world _).1 <;> rfl

theorem exchange_log (what : String) (req : Request) (s : St σ) :
    (exchange sys what req s).2.log = s.log ++ [(req, (sys.Do s.world req).1)] := by
  unfold exchange
  cases h : (sys.Do s.world req).1 with
  | error err => simp [afterDo, h]
  | ok resp =>
    simp only [statusCheck_apply]
    split
    · cases resp.Body.ReadAll <;> simp [afterDo, h]
    · simp [afterDo, h]

theorem exchange_ok_lt (what : String) (req : Request) (s : St σ) (resp : Response)
    (h : (sys.Do s.world req).1 = .ok resp) (hlt : resp.StatusCode < 300) :
    exchange sys what req s = (.ret resp, afterDo sys req s) := by
  have hn : ¬ resp.StatusCode ≥ 300 := not_le.mpr hlt
  simp only [exchange, h, statusCheck_apply, hn, if_false]

theorem exchange_ok_ge (what : String) (req : Request) (s : St σ) (resp : Response)
    (h : (sys.Do s.world req).1 = .ok resp) (hge : resp.StatusCode ≥ 300) :
    (∃ e, (exchange sys what req s).1 = .panic e) ∧
    ∀ body, resp.Body.ReadAll = .ok body →
      (exchange sys what req s).2.stderr = s.stderr ++ [body ++ "\n"] := by
  simp only [exchange, h, statusCheck_apply, hge, if_true]
  cases resp.Body.ReadAll with
  | error err => exact ⟨⟨err, rfl⟩, fun body hb => by cases hb⟩
  | ok body0 =>
    refine ⟨⟨_, rfl⟩, fun body hb => ?_⟩
    cases hb
    rfl

theorem Header.Values_append (h1 h2 : Header) (key : String) :
    Header.Values (h1 ++ h2) key = Header.Values h1 key ++ Header.Values h2 key := by
  simp [Header.Values]

theorem addXsrf_values (cookies : List Cookie) (h : Header) :
    Header.Values (addXsrf cookies h) "x-xsrf-token" =
      Header.Values h "x-xsrf-token" ++
        (cookies.filter (fun c => c.Name = "XSRF-TOKEN")).map Cookie.Value := by
  unfold addXsrf
  induction cookies generalizing h with
  | nil => simp
  | cons c rest ih =>
    rw [List.foldl_cons, ih]
    by_cases hc : c.Name = "XSRF-TOKEN"
    · simp [hc, List.filter_cons, Header.Add, Header.Values_append, Header.Values]
    · simp [hc, List.filter_cons]

theorem mem_addXsrf (cookies : List Cookie) (h : Header) (p : String × String)
    (hp : p ∈ addXsrf cookies h) :
    p ∈ h ∨ (p.1 = CanonicalMIMEHeaderKey "x-xsrf-token" ∧
      ∃ c ∈ cookies, c.Name = "XSRF-TOKEN" ∧ c.Value = p.2) := by
  unfold addXsrf at hp
  induction cookies generalizing h with
  | nil => exact Or.inl hp
  | cons c rest ih =>
    rw [List.foldl_cons] at hp
    rcases ih _ hp with hmem | ⟨hk, c2, hc2, hn, hv⟩
    · by_cases hc : c.Name = "XSRF-TOKEN"
      · simp only [hc, if_true, Header.Add, List.mem_append, List.mem_singleton] at hmem
        rcases hmem with hmem | rfl
        · exact Or.inl hmem
        · exact Or.inr ⟨rfl, c, List.mem_cons_self c rest, hc, rfl⟩
      · simp only [hc, if_false] at hmem
        exact Or.inl hmem
    · exact Or.inr ⟨hk, c2, List.mem_cons_of_mem c hc2, hn, hv⟩

/-- The `x-xsrf-token` values of the request built for the mutating methods are the
values of the `XSRF-TOKEN` cookies, in jar order. -/
theorem jsonRequest_xsrf (method : String) (u : U) (payload : P) (cookies : List Cookie) :
    Header.Values (jsonRequest sys method u payload cookies).Header "x-xsrf-token" =
      (cookies.filter (fun c => c.Name = "XSRF-TOKEN")).map Cookie.Value := by
  simp only [jsonRequest, addXsrf_values]
  simp [Header.Values, canonical_xsrf_token]

theorem exchange_sent (what : String) (req : Request) (s : St σ) :
    (exchange sys what req s).2.sent = s.sent ++ [req] := by
  simp [St.sent, exchange_log]

/-! ## Request layer: the claims -/

theorem statusContract_of_exchange (op : Prog σ Response) (what : String)
    (req : St σ → Request)
    (h : ∀ s, (∃ e, op s = (.panic e, s)) ∨ op s = exchange sys what (req s) s) :
    StatusContract op := by
  intro s rq resp hlog
  rcases h s with ⟨e, h1⟩ | h1
  · rw [h1] at hlog
    simp at hlog
  · rw [h1] at hlog ⊢
    rw [exchange_log] at hlog
    have hpair := List.append_cancel_left hlog
    simp only [List.cons.injEq, Prod.mk.injEq, and_true] at hpair
    obtain ⟨_, hdo⟩ := hpair
    constructor
    · intro hr
      rw [exchange_ok_lt sys what _ s resp hdo (by omega)]
      exact ⟨rfl, rfl⟩
    · intro hge
      exact exchange_ok_ge sys what _ s resp hdo hge

/-- C5: each of `getOrFail`, `postJSONorFail` and `putJSONorFail`, when the client
returns a response without error, returns that response if its status code is in
`[200,299]`, and if the status code is 300 or more panics after writing the full
response body to the diagnostic stream. -/
theorem request_status_contract (pc : Client) (u : U) (payload : P) :
    StatusContract (getOrFail sys pc u) ∧
    StatusContract (postJSONorFail sys pc u payload) ∧
    StatusContract (putJSONorFail sys pc u payload) := by
  refine ⟨?_, ?_, ?_⟩
  · refine statusContract_of_exchange sys _ ("GET " ++ sys.URLString u)
      (fun _ => getRequest sys u) (fun s => ?_)
    rw [getOrFail_apply]
    cases sys.Parse (sys.URLString u) with
    | error err => exact Or.inl ⟨err, rfl⟩
    | ok _ => exact Or.inr rfl
  · refine statusContract_of_exchange sys _ ("POST " ++ sys.URLString u)
      (fun s => jsonRequest sys "POST" u payload (sys.Cookies s.world u)) (fun s => ?_)
    rw [postJSONorFail_apply]
    cases sys.Parse (sys.URLString u) with
    | error err => exact Or.inl ⟨err, rfl⟩
    | ok _ => exact Or.inr rfl
  · refine statusContract_of_exchange sys _ ("PUT " ++ sys.URLString u)
      (fun s => jsonRequest sys "PUT" u payload (sys.Cookies s.world u)) (fun s => ?_)
    rw [putJSONorFail_apply]
    cases sys.Parse (sys.URLString u) with
    | error err => exact Or.inl ⟨err, rfl⟩
    | ok _ => exact Or.inr rfl

/-- C5 on examples: a GET answered with status 204 returns the response and prints
nothing; a POST answered with status 500 and body `boom` panics after printing
`boom`. -/
theorem request_status_contract_witness :
    ((getOrFail (demoSys [.ok (respOf 204 "")] []) demoClient apiURL s0).2.log
        = s0.log ++ [(getRequest (demoSys [.ok (respOf 204 "")] []) apiURL,
            .ok (respOf 204 ""))] ∧
      (getOrFail (demoSys [.ok (respOf 204 "")] []) demoClient apiURL s0).1
        = .ret (respOf 204 "") ∧
      (getOrFail (demoSys [.ok (respOf 204 "")] []) demoClient apiURL s0).2.stderr
        = s0.stderr) ∧
    ((postJSONorFail (demoSys [.ok (respOf 500 "boom")] []) demoClient apiURL "1" s0).2.log
        = s0.log ++ [(jsonRequest (demoSys [.ok (respOf 500 "boom")] []) "POST" apiURL "1" [],
            .ok (respOf 500 "boom"))] ∧
      (∃ e, (postJSONorFail (demoSys [.ok (respOf 500 "boom")] []) demoClient apiURL "1" s0).1
        = .panic e) ∧
      (postJSONorFail (demoSys [.ok (respOf 500 "boom")] []) demoClient apiURL "1" s0).2.stderr
        = s0.stderr ++ ["boom" ++ "\n"]) :=
  have hget : (getOrFail (demoSys [.ok (respOf 204 "")] []) demoClient apiURL s0).2.log
      = s0.log ++ [(getRequest (demoSys [.ok (respOf 204 "")] []) apiURL,
          .ok (respOf 204 ""))] := by rfl
  have hpost :
      (postJSONorFail (demoSys [.ok (respOf 500 "boom")] []) demoClient apiURL "1" s0).2.log
      = s0.log ++ [(jsonRequest (demoSys [.ok (respOf 500 "boom")] []) "POST" apiURL "1" [],
          .ok (respOf 500 "boom"))] := by rfl
  have cget := ((request_status_contract (demoSys [.ok (respOf 204 "")] [])
    demoClient apiURL "1").1 s0 _ _ hget).1 (by decide)
  have cpost := ((request_status_contract (demoSys [.ok (respOf 500 "boom")] [])
    demoClient apiURL "1").2.1 s0 _ _ hpost).2 (by decide)
  ⟨⟨hget, cget.1, cget.2⟩, ⟨hpost, cpost.1, cpost.2 "boom" rfl⟩⟩

/-- C6, evaluated where it fails: a response with status 101, which is outside
the 2xx range, is returned by each of the three request methods without failing. -/
theorem status_101_is_accepted :
    (getOrFail (demoSys [.ok (respOf 101 "")] []) demoClient apiURL s0).1
      = .ret (respOf 101 "") ∧
    (postJSONorFail (demoSys [.ok (respOf 101 "")] []) demoClient apiURL "1" s0).1
      = .ret (respOf 101 "") ∧
    (putJSONorFail (demoSys [.ok (respOf 101 "")] []) demoClient apiURL "1" s0).1
      = .ret (respOf 101 "") :=
  ⟨by rfl, by rfl, by rfl⟩

theorem jsonRequest_echoes (method : String) (u : U) (payload : P) (cookies : List Cookie) :
    EchoesXsrf (jsonRequest sys method u payload cookies) cookies := by
  have hv := jsonRequest_xsrf sys method u payload cookies
  constructor
  · intro v
    rw [hv]
    simp only [List.mem_map, List.mem_filter, decide_eq_true_eq]
    constructor
    · rintro ⟨c, ⟨hc, hn⟩, rfl⟩
      exact ⟨c, hc, hn, rfl⟩
    · rintro ⟨c, hc, hn, rfl⟩
      exact ⟨c, ⟨hc, hn⟩, rfl⟩
  · intro hno p hp hkey
    rcases mem_addXsrf cookies _ p hp with hbase | ⟨_, c, hc, hn, _⟩
    · simp only [List.mem_singleton] at hbase
      rw [hbase, canonical_content_type_fixed, canonical_xsrf_token] at hkey
      exact absurd hkey (by decide)
    · exact hno c hc hn

theorem postJSONorFail_sent (pc : Client) (u : U) (payload : P) (s : St σ) (u2 : U)
    (hurl : sys.Parse (sys.URLString u) = .ok u2) :
    (postJSONorFail sys pc u payload s).2.sent =
      s.sent ++ [jsonRequest sys "POST" u payload (sys.Cookies s.world u)] := by
  rw [postJSONorFail_apply, hurl]
  exact exchange_sent sys _ _ s

theorem putJSONorFail_sent (pc : Client) (u : U) (payload : P) (s : St σ) (u2 : U)
    (hurl : sys.Parse (sys.URLString u) = .ok u2) :
    (putJSONorFail sys pc u payload s).2.sent =
      s.sent ++ [jsonRequest sys "PUT" u payload (sys.Cookies s.world u)] := by
  rw [putJSONorFail_apply, hurl]
  exact exchange_sent sys _ _ s

theorem getOrFail_sent (pc : Client) (u : U) (s : St σ) (u2 : U)
    (hurl : sys.Parse (sys.URLString u) = .ok u2) :
    (getOrFail sys pc u s).2.sent = s.sent ++ [getRequest sys u] := by
  rw [getOrFail_apply, hurl]
  exact exchange_sent sys _ _ s

/-- C7: `postJSONorFail` and `putJSONorFail` to a URL `u` (whose string form is a
valid request URL) hand exactly one request to the client, a POST resp. PUT to
`u`, and that request carries an `x-xsrf-token` header with value `v` if and only
if the jar's cookies for `u` include a cookie named `XSRF-TOKEN` with value `v`;
without such a cookie it carries no `x-xsrf-token` header. -/
theorem xsrf_header_iff_cookie (pc : Client) (u : U) (payload : P) (s : St σ) (u2 : U)
    (hurl : sys.Parse (sys.URLString u) = .ok u2) :
    (∃ req, (postJSONorFail sys pc u payload s).2.sent = s.sent ++ [req] ∧
      req.Method = "POST" ∧ req.URL = sys.URLString u ∧
      EchoesXsrf req (sys.Cookies s.world u)) ∧
    (∃ req, (putJSONorFail sys pc u payload s).2.sent = s.sent ++ [req] ∧
      req.Method = "PUT" ∧ req.URL = sys.URLString u ∧
      EchoesXsrf req (sys.Cookies s.world u)) :=
  ⟨⟨_, postJSONorFail_sent sys pc u payload s u2 hurl, rfl, rfl,
      jsonRequest_echoes sys "POST" u payload _⟩,
    ⟨_, putJSONorFail_sent sys pc u payload s u2 hurl, rfl, rfl,
      jsonRequest_echoes sys "PUT" u payload _⟩⟩

/-- C7 on examples: with the cookie `XSRF-TOKEN=tok123` in the jar the POST carries
the header value `tok123`; with an empty jar it carries no `x-xsrf-token` header. -/
theorem xsrf_header_iff_cookie_witness :
    (demoSys [] xsrfJar).Parse ((demoSys [] xsrfJar).URLString apiURL) = .ok apiURL ∧
    ((∃ req, (postJSONorFail (demoSys [] xsrfJar) demoClient apiURL "1" s0).2.sent
          = s0.sent ++ [req] ∧
        req.Method = "POST" ∧ req.URL = (demoSys [] xsrfJar).URLString apiURL ∧
        EchoesXsrf req ((demoSys [] xsrfJar).Cookies s0.world apiURL)) ∧
      (∃ req, (putJSONorFail (demoSys [] xsrfJar) demoClient apiURL "1" s0).2.sent
          = s0.sent ++ [req] ∧
        req.Method = "PUT" ∧ req.URL = (demoSys [] xsrfJar).URLString apiURL ∧
        EchoesXsrf req ((demoSys [] xsrfJar).Cookies s0.world apiURL))) ∧
    (postJSONorFail (demoSys [] xsrfJar) demoClient apiURL "1" s0).2.sent
      = [{ Method := "POST", URL := "https://portal.commerce.ondemand.com/v2/subscriptions/demo/builds/",
           Header := [("Content-Type", "application/json"), ("X-Xsrf-Token", "tok123")],
           Body := ReqBody.bytes "1" }] ∧
    (postJSONorFail (demoSys [] []) demoClient apiURL "1" s0).2.sent
      = [{ Method := "POST", URL := "https://portal.commerce.ondemand.com/v2/subscriptions/demo/builds/",
           Header := [("Content-Type", "application/json")],
           Body := ReqBody.bytes "1" }] :=
  ⟨by rfl, xsrf_header_iff_cookie (demoSys [] xsrfJar) demoClient apiURL "1" s0 apiURL (by rfl),
    by rfl, by rfl⟩

/-- C8 fails as stated: with the cookie `XSRF-TOKEN=tok123` in the jar for the
target URL, the request handed to the client by `getOrFail` has no header at all. -/
theorem getOrFail_sends_no_xsrf_header :
    ({ Name := "XSRF-TOKEN", Value := "tok123" } : Cookie)
      ∈ (demoSys [] xsrfJar).Cookies s0.world apiURL ∧
    (getOrFail (demoSys [] xsrfJar) demoClient apiURL s0).2.sent
      = [{ Method := "GET", URL := "https://portal.commerce.ondemand.com/v2/subscriptions/demo/builds/",
           Header := [], Body := ReqBody.none }] ∧
    ¬ ∃ req ∈ (getOrFail (demoSys [] xsrfJar) demoClient apiURL s0).2.sent,
        "tok123" ∈ req.Header.Values "x-xsrf-token" :=
  ⟨by decide, by rfl, by
    have h : (getOrFail (demoSys [] xsrfJar) demoClient apiURL s0).2.sent
      = [{ Method := "GET", URL := "https://portal.commerce.ondemand.com/v2/subscriptions/demo/builds/",
           Header := [], Body := ReqBody.none }] := by rfl
    rw [h]
    simp [Header.Values]⟩

/-- C8 amended: the XSRF contract holds for the two mutating methods: whenever
the jar holds a cookie named `XSRF-TOKEN` for the target URL, the request handed
to the client by `postJSONorFail` and by `putJSONorFail` carries that cookie's
value in its `x-xsrf-token` header. The request of `getOrFail` is a plain GET
without any header. -/
theorem xsrf_contract_mutating_only (pc : Client) (u : U) (payload : P) (s : St σ) (u2 : U)
    (hurl : sys.Parse (sys.URLString u) = .ok u2) :
    (∃ req, (postJSONorFail sys pc u payload s).2.sent = s.sent ++ [req] ∧
      ∀ c ∈ sys.Cookies s.world u, c.Name = "XSRF-TOKEN" →
        c.Value ∈ req.Header.Values "x-xsrf-token") ∧
    (∃ req, (putJSONorFail sys pc u payload s).2.sent = s.sent ++ [req] ∧
      ∀ c ∈ sys.Cookies s.world u, c.Name = "XSRF-TOKEN" →
        c.Value ∈ req.Header.Values "x-xsrf-token") ∧
    (∃ req, (getOrFail sys pc u s).2.sent = s.sent ++ [req] ∧
      req.Method = "GET" ∧ req.Header = []) := by
  refine ⟨⟨_, postJSONorFail_sent sys pc u payload s u2 hurl, ?_⟩,
    ⟨_, putJSONorFail_sent sys pc u payload s u2 hurl, ?_⟩,
    ⟨_, getOrFail_sent sys pc u s u2 hurl, rfl, rfl⟩⟩
  · intro c hc hn
    exact ((jsonRequest_echoes sys "POST" u payload _).1 c.Value).mpr ⟨c, hc, hn, rfl⟩
  · intro c hc hn
    exact ((jsonRequest_echoes sys "PUT" u payload _).1 c.Value).mpr ⟨c, hc, hn, rfl⟩

/-- C8 amended, with the cookie `XSRF-TOKEN=tok123` in the jar. -/
theorem xsrf_contract_mutating_only_witness :
    (demoSys [] xsrfJar).Parse ((demoSys [] xsrfJar).URLString apiURL) = .ok apiURL ∧
    (∃ req, (postJSONorFail (demoSys [] xsrfJar) demoClient apiURL "1" s0).2.sent
        = s0.sent ++ [req] ∧
      ∀ c ∈ (demoSys [] xsrfJar).Cookies s0.world apiURL, c.Name = "XSRF-TOKEN" →
        c.Value ∈ req.Header.Values "x-xsrf-token") ∧
    (∃ req, (putJSONorFail (demoSys [] xsrfJar) demoClient apiURL "1" s0).2.sent
        = s0.sent ++ [req] ∧
      ∀ c ∈ (demoSys [] xsrfJar).Cookies s0.world apiURL, c.Name = "XSRF-TOKEN" →
        c.Value ∈ req.Header.Values "x-xsrf-token") ∧
    (∃ req, (getOrFail (demoSys [] xsrfJar) demoClient apiURL s0).2.sent = s0.sent ++ [req] ∧
      req.Method = "GET" ∧ req.Header = []) :=
  ⟨by rfl,
    xsrf_contract_mutating_only (demoSys [] xsrfJar) demoClient apiURL "1" s0 apiURL (by rfl)⟩

/-! ## Session bootstrapper: lemmas -/

theorem loginStep_apply (rv : Resolver U) (resp : Response) (s : St σ) :
    loginStep sys rv resp s =
      match (parseForm sys resp.Body).2.2 with
      | some err => (.panic err, s)
      | none =>
        match resolveRef sys rv.b (parseForm sys resp.Body).1 with
        | .error err => (.panic err, s)
        | .ok u =>
          match sys.Parse (sys.URLString u) with
          | .error err => (.panic err, s)
          | .ok _ =>
            match (sys.Do s.world
              (formPost (sys.URLString u) (parseForm sys resp.Body).2.1)).1 with
            | .error err =>
              (.panic err,
                afterDo sys (formPost (sys.URLString u) (parseForm sys resp.Body).2.1) s)
            | .ok resp2 =>
              (.ret ({ b := u }, resp2),
                afterDo sys (formPost (sys.URLString u) (parseForm sys resp.Body).2.1) s) := by
  simp only [loginStep, parseBody, Prog.bind_apply, resolveRef, Resolver.call]
  rcases parseForm sys resp.Body with ⟨a, p, _ | err⟩
  · simp only [fail, Prog.pure, Prog.pure_apply]
    cases sys.Parse a with
    | error err => rfl
    | ok pa =>
      simp only [orFail, Prog.pure, hcPostForm, NewRequest]
      cases sys.Parse (sys.URLString (sys.ResolveReference rv.b pa)) with
      | error err => rfl
      | ok u2 =>
        simp only [hcDo, afterDo, formPost, Header.Set, List.filter_nil, List.nil_append,
          canonical_content_type_fixed]
        cases (sys.Do s.world _).1 <;> rfl
  · rfl

theorem NewClient_apply (subscription certPEMBlock keyPEMBlock jarfile : String) (s : St σ) :
    NewClient sys subscription certPEMBlock keyPEMBlock jarfile s =
      match sys.X509KeyPair certPEMBlock keyPEMBlock with
      | .error err => (.panic err, s)
      | .ok _ =>
        match sys.jarNew jarfile s.world with
        | .error err => (.panic err, s)
        | .ok w0 =>
          match sys.Parse "https://portal.commerce.ondemand.com/" with
          | .error err => (.panic err, withJar w0 s)
          | .ok _ =>
            match (sys.Do w0 probeRequest).1 with
            | .error err => (.panic err, afterDo sys probeRequest (withJar w0 s))
            | .ok resp =>
              if resp.StatusCode ≥ 300 then
                match resp.Body.ReadAll with
                | .ok body =>
                  (.panic ("Login: Expected HTTP 2XX status, got " ++ toString resp.StatusCode),
                    { afterDo sys probeRequest (withJar w0 s) with
                      stderr := s.stderr ++ [body ++ "\n"] })
                | .error err => (.panic err, afterDo sys probeRequest (withJar w0 s))
              else if resp.Header.Get "com.sap.cloud.security.login" = "" then
                (.ret { subscription := subscription },
                  afterDo sys probeRequest (withJar w0 s))
              else
                loginChain sys subscription (chainingResolver sys.PORTAL) resp
                  (announced (afterDo sys probeRequest (withJar w0 s))) := by
  simp only [NewClient, Prog.bind_apply]
  cases sys.X509KeyPair certPEMBlock keyPEMBlock with
  | error err => rfl
  | ok _ =>
    simp only [orFail, Prog.pure, newJar]
    cases sys.jarNew jarfile s.world with
    | error err => rfl
    | ok w0 =>
      simp only [hcGet, NewRequest]
      cases sys.Parse "https://portal.commerce.ondemand.com/" with
      | error err => rfl
      | ok _ =>
        simp only [hcDo, afterDo, withJar, probeRequest]
        cases (sys.Do w0 _).1 with
        | error err => rfl
        | ok resp =>
          simp only [Prog.pure, needLogin, Prog.bind_apply]
          by_cases hst : resp.StatusCode ≥ 300
          · simp only [hst, if_true, Prog.bind_apply, failWithBodyDump_some]
            cases resp.Body.ReadAll <;> rfl
          · simp only [hst, if_false, Prog.bind_apply, Prog.pure_apply]
            by_cases hh : resp.Header.Get "com.sap.cloud.security.login" = ""
            · have hb : (resp.Header.Get "com.sap.cloud.security.login" != "") = false := by
                simp [hh]
              rw [hb, if_neg (by decide), if_pos hh]
              rfl
            · have hb : (resp.Header.Get "com.sap.cloud.security.login" != "") = true := by
                simp [hh]
              rw [hb, if_pos rfl, if_neg hh]
              rfl

theorem loginStep_ok (rv : Resolver U) (resp : Response) (s : St σ) (u : U) (p : Values)
    (resp2 : Response) (w2 : σ) (h : LoginStepOK sys rv.b resp s.world u p resp2 w2) :
    loginStep sys rv resp s =
      (.ret ({ b := u }, resp2),
        { world := w2, stderr := s.stderr,
          log := s.log ++ [(formPost (sys.URLString u) p, .ok resp2)] }) := by
  obtain ⟨a, hform, hres, ⟨u2, hparse⟩, hdo⟩ := h
  rw [loginStep_apply]
  simp only [hform, hres, hparse, hdo, afterDo]

/-! ### Failed exchanges abort -/

theorem AnsweredOrAborted.at_error {α : Type} {new : List Exchange} {o : Outcome α}
    (h : AnsweredOrAborted new o) (i : Nat) (req : Request) (e : Error)
    (hi : new[i]? = some (req, Except.error e)) :
    o = .panic e ∧ new.length = i + 1 := by
  rcases h with hall | ⟨pre, rq, e2, rfl, hpre, ho⟩
  · obtain ⟨r, hr⟩ := hall _ (List.getElem?_mem hi)
    cases hr
  · rcases Nat.lt_trichotomy i pre.length with hlt | heq | hgt
    · rw [List.getElem?_append_left hlt] at hi
      obtain ⟨r, hr⟩ := hpre _ (List.getElem?_mem hi)
      cases hr
    · subst heq
      simp only [List.getElem?_append_right (le_refl _), Nat.sub_self, List.getElem?_cons_zero,
        Option.some.injEq, Prod.mk.injEq, Except.error.injEq] at hi
      obtain ⟨_, rfl⟩ := hi
      exact ⟨ho, by simp⟩
    · have : (pre ++ [(rq, Except.error e2)])[i]? = none := by
        apply List.getElem?_eq_none
        simp only [List.length_append, List.length_singleton]
        omega
      rw [this] at hi
      cases hi

theorem postRun_pure {α : Type} (a : α) (s : St σ) :
    PostRun 0 s ((Pure.pure a : Prog σ α) s) :=
  ⟨[], by simp [Prog.pure_apply], by simp, by simp, Or.inl (by simp [AllAnswered])⟩

theorem postRun_bind {α β : Type} {n k : Nat} (m : Prog σ α) (f : α → Prog σ β) (s : St σ)
    (hm : PostRun n s (m s)) (hf : ∀ a s1, PostRun k s1 (f a s1)) :
    PostRun (n + k) s ((m >>= f) s) := by
  obtain ⟨new1, hlog1, hlen1, hpost1, hab1⟩ := hm
  rw [Prog.bind_apply]
  rcases hres : m s with ⟨_ | e0, s1⟩
  · rename_i a
    rw [hres] at hlog1 hab1
    obtain ⟨new2, hlog2, hlen2, hpost2, hab2⟩ := hf a s1
    have hall1 : AllAnswered new1 := by
      rcases hab1 with h | ⟨_, _, _, _, _, ho⟩
      · exact h
      · cases ho
    refine ⟨new1 ++ new2, ?_, ?_, ?_, ?_⟩
    · simp only [hlog2]
      rw [show s1.log = s.log ++ new1 from hlog1, List.append_assoc]
    · simp only [List.length_append]
      omega
    · intro x hx
      rcases List.mem_append.mp hx with h | h
      · exact hpost1 x h
      · exact hpost2 x h
    · rcases hab2 with h | ⟨pre, rq, e, hnew, hpre, ho⟩
      · left
        intro x hx
        rcases List.mem_append.mp hx with h1 | h1
        · exact hall1 x h1
        · exact h x h1
      · right
        refine ⟨new1 ++ pre, rq, e, by simp [hnew], ?_, ho⟩
        intro x hx
        rcases List.mem_append.mp hx with h1 | h1
        · exact hall1 x h1
        · exact hpre x h1
  · rw [hres] at hlog1 hab1
    refine ⟨new1, hlog1, by omega, hpost1, ?_⟩
    rcases hab1 with h | ⟨pre, rq, e, hnew, hpre, ho⟩
    · exact Or.inl h
    · exact Or.inr ⟨pre, rq, e, hnew, hpre, by cases ho; rfl⟩

theorem postRun_loginStep (rv : Resolver U) (resp : Response) (s : St σ) :
    PostRun 1 s (loginStep sys rv resp s) := by
  have hnone : ∀ (o : Outcome (Resolver U × Response)), PostRun 1 s (o, s) := fun o =>
    ⟨[], by simp, by simp, by simp, Or.inl (by simp [AllAnswered])⟩
  rw [loginStep_apply]
  cases (parseForm sys resp.Body).2.2 with
  | some err => exact hnone _
  | none =>
    simp only []
    cases resolveRef sys rv.b (parseForm sys resp.Body).1 with
    | error err => exact hnone _
    | ok u =>
      simp only []
      cases sys.Parse (sys.URLString u) with
      | error err => exact hnone _
      | ok _ =>
        simp only []
        cases hdo : (sys.Do s.world
            (formPost (sys.URLString u) (parseForm sys resp.Body).2.1)).1 with
        | error err =>
          refine ⟨[(formPost (sys.URLString u) (parseForm sys resp.Body).2.1,
              Except.error err)], by simp [afterDo, hdo], by simp,
            by simp [formPost], Or.inr ⟨[], _, err, rfl, by simp [AllAnswered], rfl⟩⟩
        | ok resp2 =>
          refine ⟨[(formPost (sys.URLString u) (parseForm sys resp.Body).2.1,
              Except.ok resp2)], by simp [afterDo, hdo], by simp,
            by simp [formPost], Or.inl ?_⟩
          intro x hx
          simp only [List.mem_singleton] at hx
          exact ⟨resp2, by rw [hx]⟩

theorem postRun_loginChain (subscription : String) (rv : Resolver U) (resp : Response)
    (s : St σ) : PostRun 4 s (loginChain sys subscription rv resp s) := by
  unfold Portal.loginChain
  refine postRun_bind (n := 1) (k := 3) _ _ s (postRun_loginStep sys _ _ s) (fun a1 s1 => ?_)
  refine postRun_bind (n := 1) (k := 2) _ _ s1 (postRun_loginStep sys _ _ s1) (fun a2 s2 => ?_)
  refine postRun_bind (n := 1) (k := 1) _ _ s2 (postRun_loginStep sys _ _ s2) (fun a3 s3 => ?_)
  refine postRun_bind (n := 1) (k := 0) _ _ s3 (postRun_loginStep sys _ _ s3) (fun a4 s4 => ?_)
  exact postRun_pure _ s4

/-- The exchanges of `NewClient`: at most five, the probe GET first and form POSTs
after it; an exchange that failed is the last one, and `NewClient` panics with
its error. -/
theorem NewClient_exchanges (subscription certPEMBlock keyPEMBlock jarfile : String)
    (s : St σ) :
    ∃ new : List Exchange,
      (NewClient sys subscription certPEMBlock keyPEMBlock jarfile s).2.log = s.log ++ new ∧
      new.length ≤ 5 ∧
      (∀ (i : Nat) (req : Request) (r : Except Error Response), new[i]? = some (req, r) →
        req.Method = if i = 0 then "GET" else "POST") ∧
      (∀ (i : Nat) (req : Request) (e : Error), new[i]? = some (req, Except.error e) →
        (NewClient sys subscription certPEMBlock keyPEMBlock jarfile s).1 = .panic e ∧
        new.length = i + 1) := by
  have hnil : ∀ (res : Outcome Client × St σ), res.2.log = s.log →
      ∃ new : List Exchange, res.2.log = s.log ++ new ∧ new.length ≤ 5 ∧
        (∀ (i : Nat) (req : Request) (r : Except Error Response), new[i]? = some (req, r) →
          req.Method = if i = 0 then "GET" else "POST") ∧
        (∀ (i : Nat) (req : Request) (e : Error), new[i]? = some (req, Except.error e) →
          res.1 = .panic e ∧ new.length = i + 1) := fun res h =>
    ⟨[], by simp [h], by simp, by simp, by simp⟩
  have hone : ∀ (res : Outcome Client × St σ) (r : Except Error Response),
      res.2.log = s.log ++ [(probeRequest, r)] → (∀ e, r = .error e → res.1 = .panic e) →
      ∃ new : List Exchange, res.2.log = s.log ++ new ∧ new.length ≤ 5 ∧
        (∀ (i : Nat) (req : Request) (r : Except Error Response), new[i]? = some (req, r) →
          req.Method = if i = 0 then "GET" else "POST") ∧
        (∀ (i : Nat) (req : Request) (e : Error), new[i]? = some (req, Except.error e) →
          res.1 = .panic e ∧ new.length = i + 1) := by
    intro res r h hr
    refine ⟨[(probeRequest, r)], h, by simp, ?_, ?_⟩
    · intro i req r2 hi
      cases i with
      | zero =>
        simp only [List.getElem?_cons_zero, Option.some.injEq, Prod.mk.injEq] at hi
        rw [← hi.1]
        rfl
      | succ i => simp at hi
    · intro i req e hi
      cases i with
      | zero =>
        simp only [List.getElem?_cons_zero, Option.some.injEq, Prod.mk.injEq] at hi
        exact ⟨hr e hi.2, rfl⟩
      | succ i => simp at hi
  rw [NewClient_apply]
  cases sys.X509KeyPair certPEMBlock keyPEMBlock with
  | error err => exact hnil _ rfl
  | ok _ =>
    simp only []
    cases sys.jarNew jarfile s.world with
    | error err => exact hnil _ rfl
    | ok w0 =>
      simp only []
      cases sys.Parse "https://portal.commerce.ondemand.com/" with
      | error err => exact hnil _ rfl
      | ok _ =>
        simp only []
        cases hdo : (sys.Do w0 probeRequest).1 with
        | error err =>
          refine hone _ (.error err) (by simp [afterDo, withJar, hdo]) ?_
          intro e he
          cases he
          rfl
        | ok resp =>
          simp only []
          by_cases hst : resp.StatusCode ≥ 300
          · simp only [hst, if_true]
            cases resp.Body.ReadAll with
            | error err =>
              exact hone _ (.ok resp) (by simp [afterDo, withJar, hdo])
                (fun e he => by cases he)
            | ok body =>
              exact hone _ (.ok resp) (by simp [afterDo, withJar, hdo])
                (fun e he => by cases he)
          · rw [if_neg hst]
            by_cases hh : resp.Header.Get "com.sap.cloud.security.login" = ""
            · rw [if_pos hh]
              exact hone _ (.ok resp) (by simp [afterDo, withJar, hdo])
                (fun e he => by cases he)
            · rw [if_neg hh]
              obtain ⟨newc, hlog, hlen, hpost, hab⟩ := postRun_loginChain sys subscription
                (chainingResolver sys.PORTAL) resp
                (announced (afterDo sys probeRequest (withJar w0 s)))
              refine ⟨(probeRequest, .ok resp) :: newc, ?_, ?_, ?_, ?_⟩
              · rw [hlog]
                simp [announced, afterDo, withJar, hdo]
              · simp only [List.length_cons]
                omega
              · intro i req r hi
                cases i with
                | zero =>
                  simp only [List.getElem?_cons_zero, Option.some.injEq, Prod.mk.injEq] at hi
                  rw [← hi.1]
                  rfl
                | succ i =>
                  simp only [List.getElem?_cons_succ] at hi
                  simpa using hpost _ (List.getElem?_mem hi)
              · intro i req e hi
                cases i with
                | zero => simp at hi
                | succ i =>
                  simp only [List.getElem?_cons_succ] at hi
                  obtain ⟨ho, hl⟩ := hab.at_error i req e hi
                  exact ⟨ho, by simp [hl]⟩

/-! ### The status of a form POST response is not read -/

theorem sim_bind {α β : Type} {R : α → α → Prop} {Q : β → β → Prop}
    (m2 m : Prog σ α) (f2 f : α → Prog σ β) (s2 s : St σ)
    (hm : Sim R (m2 s2) (m s))
    (hf : ∀ a2 a t2 t, R a2 a → SameEffects t2 t → Sim Q (f2 a2 t2) (f a t)) :
    Sim Q ((m2 >>= f2) s2) ((m >>= f) s) := by
  rw [Prog.bind_apply, Prog.bind_apply]
  obtain ⟨heff, ⟨a2, a, h2, h1, hR⟩ | ⟨e, h2, h1⟩⟩ := hm
  · rcases hr2 : m2 s2 with ⟨o2, t2⟩
    rcases hr : m s with ⟨o, t⟩
    rw [hr2] at h2 heff
    rw [hr] at h1 heff
    simp only at h2 h1 heff
    subst h2 h1
    exact hf a2 a t2 t hR heff
  · rcases hr2 : m2 s2 with ⟨o2, t2⟩
    rcases hr : m s with ⟨o, t⟩
    rw [hr2] at h2 heff
    rw [hr] at h1 heff
    simp only at h2 h1 heff
    subst h2 h1
    exact ⟨heff, Or.inr ⟨e, rfl, rfl⟩⟩

theorem withPostStatus_Do_post (f : σ → Request → Int → Int) (w : σ) (req : Request)
    (h : req.Method = "POST") :
    (sys.withPostStatus f).Do w req =
      (match (sys.Do w req).1 with
        | .ok resp => .ok { resp with StatusCode := f w req resp.StatusCode }
        | .error err => .error err,
       (sys.Do w req).2) := by
  simp [Sys.withPostStatus, h]

theorem sim_loginStep (f : σ → Request → Int → Int) (rv : Resolver U)
    (resp2 resp : Response) (s2 s : St σ) (heff : SameEffects s2 s)
    (hbody : resp2.Body = resp.Body) :
    Sim (fun a2 a => a2.1 = a.1 ∧ a2.2.Body = a.2.Body)
      (loginStep (sys.withPostStatus f) rv resp2 s2) (loginStep sys rv resp s) := by
  obtain ⟨hw, herr, hsent⟩ := heff
  have hpf : ∀ b, parseForm (sys.withPostStatus f) b = parseForm sys b := fun _ => rfl
  have hrr : ∀ b a, resolveRef (sys.withPostStatus f) b a = resolveRef sys b a := fun _ _ => rfl
  have hpa : (sys.withPostStatus f).Parse = sys.Parse := rfl
  have hus : (sys.withPostStatus f).URLString = sys.URLString := rfl
  rw [loginStep_apply, loginStep_apply, hpf, hrr, hpa, hus, hbody]
  have hsame : ∀ (o : Outcome (Resolver U × Response)) (e : Error), o = .panic e →
      Sim (fun a2 a => a2.1 = a.1 ∧ a2.2.Body = a.2.Body) (o, s2) (o, s) := fun o e ho =>
    ⟨⟨hw, herr, hsent⟩, Or.inr ⟨e, ho, ho⟩⟩
  cases (parseForm sys resp.Body).2.2 with
  | some err => exact hsame _ err rfl
  | none =>
    simp only []
    cases resolveRef sys rv.b (parseForm sys resp.Body).1 with
    | error err => exact hsame _ err rfl
    | ok u =>
      simp only []
      cases sys.Parse (sys.URLString u) with
      | error err => exact hsame _ err rfl
      | ok _ =>
        simp only []
        have hpost : (formPost (sys.URLString u) (parseForm sys resp.Body).2.1).Method
            = "POST" := rfl
        generalize formPost (sys.URLString u) (parseForm sys resp.Body).2.1 = req at hpost ⊢
        have hd := withPostStatus_Do_post sys f s.world req hpost
        have heff2 : SameEffects (afterDo (sys.withPostStatus f) req s2)
            (afterDo sys req s) := by
          refine ⟨?_, herr, ?_⟩
          · simp only [afterDo, hw, hd]
          · simp only [St.sent] at hsent
            simp [afterDo, St.sent, hsent]
        rw [hw, hd]
        cases (sys.Do s.world req).1 with
        | error err => exact ⟨heff2, Or.inr ⟨err, rfl, rfl⟩⟩
        | ok r => exact ⟨heff2, Or.inl ⟨_, _, rfl, rfl, rfl, rfl⟩⟩

theorem sim_loginChain (f : σ → Request → Int → Int) (subscription : String)
    (rv : Resolver U) (resp : Response) (s : St σ) :
    Sim Eq (loginChain (sys.withPostStatus f) subscription rv resp s)
      (loginChain sys subscription rv resp s) := by
  unfold Portal.loginChain
  refine sim_bind _ _ _ _ s s (sim_loginStep sys f rv resp resp s s ⟨rfl, rfl, rfl⟩ rfl) ?_
  rintro ⟨rv1, r1⟩ ⟨rv1b, r1b⟩ t1 t1b ⟨hrv, hb⟩ he
  simp only at hrv hb
  subst hrv
  refine sim_bind _ _ _ _ t1 t1b (sim_loginStep sys f rv1 r1 r1b t1 t1b he hb) ?_
  rintro ⟨rv2, r2⟩ ⟨rv2b, r2b⟩ t2 t2b ⟨hrv, hb⟩ he
  simp only at hrv hb
  subst hrv
  refine sim_bind _ _ _ _ t2 t2b (sim_loginStep sys f rv2 r2 r2b t2 t2b he hb) ?_
  rintro ⟨rv3, r3⟩ ⟨rv3b, r3b⟩ t3 t3b ⟨hrv, hb⟩ he
  simp only at hrv hb
  subst hrv
  refine sim_bind _ _ _ _ t3 t3b (sim_loginStep sys f rv3 r3 r3b t3 t3b he hb) ?_
  rintro ⟨rv4, r4⟩ ⟨rv4b, r4b⟩ t4 t4b _ he
  exact ⟨he, Or.inl ⟨_, _, rfl, rfl, rfl⟩⟩

/-- Replacing the status codes of the responses to the form POSTs changes neither
what `NewClient` returns nor its effects. -/
theorem NewClient_status_independent (f : σ → Request → Int → Int)
    (subscription certPEMBlock keyPEMBlock jarfile : String) (s : St σ) :
    Sim Eq (NewClient (sys.withPostStatus f) subscription certPEMBlock keyPEMBlock jarfile s)
      (NewClient sys subscription certPEMBlock keyPEMBlock jarfile s) := by
  have hrefl : ∀ (res : Outcome Client × St σ), Sim Eq res res := fun res =>
    ⟨⟨rfl, rfl, rfl⟩, by
      rcases res with ⟨_ | e, t⟩
      · exact Or.inl ⟨_, _, rfl, rfl, rfl⟩
      · exact Or.inr ⟨e, rfl, rfl⟩⟩
  have hx : (sys.withPostStatus f).X509KeyPair = sys.X509KeyPair := rfl
  have hj : (sys.withPostStatus f).jarNew = sys.jarNew := rfl
  have hpa : (sys.withPostStatus f).Parse = sys.Parse := rfl
  have hpo : (sys.withPostStatus f).PORTAL = sys.PORTAL := rfl
  have hdo : ∀ w, (sys.withPostStatus f).Do w probeRequest = sys.Do w probeRequest := by
    intro w
    simp [Sys.withPostStatus, probeRequest]
  have haf : ∀ t, afterDo (sys.withPostStatus f) probeRequest t = afterDo sys probeRequest t := by
    intro t
    simp only [afterDo, hdo]
  rw [NewClient_apply, NewClient_apply, hx, hj, hpa, hpo]
  cases sys.X509KeyPair certPEMBlock keyPEMBlock with
  | error err => exact hrefl _
  | ok _ =>
    simp only []
    cases sys.jarNew jarfile s.world with
    | error err => exact hrefl _
    | ok w0 =>
      simp only []
      cases sys.Parse "https://portal.commerce.ondemand.com/" with
      | error err => exact hrefl _
      | ok _ =>
        simp only [hdo, haf]
        cases (sys.Do w0 probeRequest).1 with
        | error err => exact hrefl _
        | ok resp =>
          simp only []
          by_cases hst : resp.StatusCode ≥ 300
          · rw [if_pos hst, if_pos hst]
            exact hrefl _
          · rw [if_neg hst, if_neg hst]
            by_cases hh : resp.Header.Get "com.sap.cloud.security.login" = ""
            · rw [if_pos hh, if_pos hh]
              exact hrefl _
            · rw [if_neg hh, if_neg hh]
              exact sim_loginChain sys f subscription _ resp _

/-! ## Session bootstrapper: the claims -/

/-- C9 fails as stated: an accepted probe response with the login header does not
always lead to four form POSTs and a returned client. When the login page has two
forms with actions, `NewClient` panics before any POST; when the first form POST
gets no response, `NewClient` panics after one POST. -/
theorem NewClient_login_step_may_abort :
    (probeAmbiguous.StatusCode < 300 ∧
      probeAmbiguous.Header.Get "com.sap.cloud.security.login" ≠ "" ∧
      NewClient (demoSys [.ok probeAmbiguous] []) "demo" "cert" "key" "jar" s0 =
        (.panic "found more than one <form>",
          { world := 1, stderr := ["Session expired, logging in...\n"],
            log := [(probeRequest, .ok probeAmbiguous)] })) ∧
    (probeLogin.StatusCode < 300 ∧
      probeLogin.Header.Get "com.sap.cloud.security.login" ≠ "" ∧
      NewClient (demoSys [.ok probeLogin] []) "demo" "cert" "key" "jar" s0 =
        (.panic "connection refused",
          { world := 2, stderr := ["Session expired, logging in...\n"],
            log := [(probeRequest, .ok probeLogin),
              (postIdp, .error "connection refused")] })) :=
  ⟨⟨by decide, by decide, by rfl⟩, ⟨by decide, by decide, by rfl⟩⟩

/-- C9 amended: the bootstrap sequence of `NewClient`, given an accepted probe
response `resp0`. Without the login header (absent or empty; `Header.Get` looks
the name up in canonical form, as `net/http` stores it) `NewClient` sends nothing
but the probe and returns the client. With the header, and provided each of the
four login steps succeeds (form extraction returns no error, the action is a
well-formed reference whose resolution the client accepts as a request URL, and
the form POST is answered with a response), `NewClient` sends exactly four form
POSTs after the probe and returns the client; POST `k` goes to the action
extracted from response `k-1` resolved against the URL of POST `k-1` (the portal
root for the first), with exactly the hidden parameters of response `k-1` as body. -/
theorem NewClient_bootstrap (subscription certPEMBlock keyPEMBlock jarfile : String)
    (s : St σ) (w0 w1 : σ) (root : U) (resp0 : Response)
    (hcert : sys.X509KeyPair certPEMBlock keyPEMBlock = .ok ())
    (hjar : sys.jarNew jarfile s.world = .ok w0)
    (hroot : sys.Parse "https://portal.commerce.ondemand.com/" = .ok root)
    (hprobe : sys.Do w0 probeRequest = (.ok resp0, w1))
    (haccept : resp0.StatusCode < 300) :
    (resp0.Header.Get "com.sap.cloud.security.login" = "" →
      NewClient sys subscription certPEMBlock keyPEMBlock jarfile s =
        (.ret { subscription := subscription },
          { world := w1, stderr := s.stderr,
            log := s.log ++ [(probeRequest, .ok resp0)] })) ∧
    (resp0.Header.Get "com.sap.cloud.security.login" ≠ "" →
      ∀ (u1 u2 u3 u4 : U) (p1 p2 p3 p4 : Values) (resp1 resp2 resp3 resp4 : Response)
        (w2 w3 w4 w5 : σ),
        LoginStepOK sys sys.PORTAL resp0 w1 u1 p1 resp1 w2 →
        LoginStepOK sys u1 resp1 w2 u2 p2 resp2 w3 →
        LoginStepOK sys u2 resp2 w3 u3 p3 resp3 w4 →
        LoginStepOK sys u3 resp3 w4 u4 p4 resp4 w5 →
        NewClient sys subscription certPEMBlock keyPEMBlock jarfile s =
          (.ret { subscription := subscription },
            { world := w5,
              stderr := s.stderr ++ ["Session expired, logging in...\n"],
              log := s.log ++
                [(probeRequest, .ok resp0),
                 (formPost (sys.URLString u1) p1, .ok resp1),
                 (formPost (sys.URLString u2) p2, .ok resp2),
                 (formPost (sys.URLString u3) p3, .ok resp3),
                 (formPost (sys.URLString u4) p4, .ok resp4)] })) := by
  have hst : ¬ resp0.StatusCode ≥ 300 := not_le.mpr haccept
  constructor
  · intro hh
    rw [NewClient_apply]
    simp only [hcert, hjar, hroot, hprobe, hst, hh, if_true, if_false, afterDo, withJar]
  · intro hh u1 u2 u3 u4 p1 p2 p3 p4 resp1 resp2 resp3 resp4 w2 w3 w4 w5 h1 h2 h3 h4
    rw [NewClient_apply]
    simp only [hcert, hjar, hroot, hprobe, hst, hh, if_false, afterDo, withJar, announced,
      loginChain, Prog.bind_apply, chainingResolver]
    rw [loginStep_ok sys _ _ _ u1 p1 resp1 w2 h1]
    simp only []
    rw [loginStep_ok sys _ _ _ u2 p2 resp2 w3 h2]
    simp only []
    rw [loginStep_ok sys _ _ _ u3 p3 resp3 w4 h3]
    simp only []
    rw [loginStep_ok sys _ _ _ u4 p4 resp4 w5 h4]
    simp only [Prog.pure_apply, List.append_assoc, List.cons_append, List.nil_append]

/-- C9 amended, on examples. A probe answered with status 200 and no login header: only the
probe is sent and the client is returned. A probe answered with the login header
and a chain of four answered forms: exactly four form POSTs follow the probe, the
first to the identity provider named by the probe's form, the later ones to
`/step2` on that host, and the client is returned. -/
theorem NewClient_bootstrap_witness :
    ((respOf 200 "welcome").Header.Get "com.sap.cloud.security.login" = "" ∧
      NewClient (demoSys [.ok (respOf 200 "welcome")] []) "demo" "cert" "key" "jar" s0 =
        (.ret demoClient,
          { world := 1, stderr := [],
            log := [(probeRequest, .ok (respOf 200 "welcome"))] })) ∧
    (probeLogin.Header.Get "com.sap.cloud.security.login" ≠ "" ∧
      LoginStepOK (demoSys loginScript []) (demoSys loginScript []).PORTAL probeLogin 1
        { origin := "https://idp.example.com", path := "/sso" } [("SAMLRequest", ["xyz"])]
        (respOf 200 htmlStep2) 2 ∧
      NewClient (demoSys loginScript []) "demo" "cert" "key" "jar" s0 =
        (.ret demoClient,
          { world := 5, stderr := ["Session expired, logging in...\n"],
            log := [(probeRequest, .ok probeLogin),
              (postIdp, .ok (respOf 200 htmlStep2)),
              (postStep2, .ok (respOf 200 htmlStep2)),
              (postStep2, .ok (respOf 200 htmlStep2)),
              (postStep2, .ok (respOf 200 "welcome"))] })) :=
  have hstep1 : LoginStepOK (demoSys loginScript []) (demoSys loginScript []).PORTAL
      probeLogin 1 { origin := "https://idp.example.com", path := "/sso" }
      [("SAMLRequest", ["xyz"])] (respOf 200 htmlStep2) 2 :=
    ⟨"https://idp.example.com/sso", by rfl, by rfl, ⟨_, by rfl⟩, by rfl⟩
  have hstep2 : LoginStepOK (demoSys loginScript [])
      { origin := "https://idp.example.com", path := "/sso" } (respOf 200 htmlStep2) 2
      { origin := "https://idp.example.com", path := "/step2" } [("b", ["2"]), ("a", ["1"])]
      (respOf 200 htmlStep2) 3 :=
    ⟨"/step2", by rfl, by rfl, ⟨_, by rfl⟩, by rfl⟩
  have hstep3 : LoginStepOK (demoSys loginScript [])
      { origin := "https://idp.example.com", path := "/step2" } (respOf 200 htmlStep2) 3
      { origin := "https://idp.example.com", path := "/step2" } [("b", ["2"]), ("a", ["1"])]
      (respOf 200 htmlStep2) 4 :=
    ⟨"/step2", by rfl, by rfl, ⟨_, by rfl⟩, by rfl⟩
  have hstep4 : LoginStepOK (demoSys loginScript [])
      { origin := "https://idp.example.com", path := "/step2" } (respOf 200 htmlStep2) 4
      { origin := "https://idp.example.com", path := "/step2" } [("b", ["2"]), ("a", ["1"])]
      (respOf 200 "welcome") 5 :=
    ⟨"/step2", by rfl, by rfl, ⟨_, by rfl⟩, by rfl⟩
  ⟨⟨by decide,
      (NewClient_bootstrap (demoSys [.ok (respOf 200 "welcome")] []) "demo" "cert" "key" "jar"
        s0 0 1 { origin := "https://portal.commerce.ondemand.com", path := "/" }
        (respOf 200 "welcome") (by rfl) (by rfl) (by rfl) (by rfl) (by decide)).1 (by decide)⟩,
    ⟨by decide, hstep1,
      (NewClient_bootstrap (demoSys loginScript []) "demo" "cert" "key" "jar"
        s0 0 1 { origin := "https://portal.commerce.ondemand.com", path := "/" }
        probeLogin (by rfl) (by rfl) (by rfl) (by rfl) (by decide)).2 (by decide)
        _ _ _ _ _ _ _ _ _ _ _ _ _ _ _ _ hstep1 hstep2 hstep3 hstep4⟩⟩

/-- C10 fails as stated: when all four form POSTs are answered with statuses
outside the 2xx range (500, 404, 401, 503), `NewClient` still performs all four
login steps and returns the client. -/
theorem NewClient_ignores_post_status :
    NewClient (demoSys errorStatusScript []) "demo" "cert" "key" "jar" s0 =
      (.ret demoClient,
        { world := 5, stderr := ["Session expired, logging in...\n"],
          log := [(probeRequest, .ok probeLogin),
            (postIdp, .ok (respOf 500 htmlStep2)),
            (postStep2, .ok (respOf 404 htmlStep2)),
            (postStep2, .ok (respOf 401 htmlStep2)),
            (postStep2, .ok (respOf 503 "unavailable"))] }) := by
  rfl

/-- C10 amended: in the login sequence of `NewClient` an exchange with the HTTP
client that ends in an error instead of a response (the probe, or the `k`-th form
POST for `k` in 1..4) aborts the bootstrap: `NewClient` panics with that error, no
client is returned, and no later exchange is attempted. The status code of the
response to a form POST is not read: replacing the status codes of all responses
to POST requests changes neither the outcome of `NewClient`, nor the outside
state, nor the diagnostic output, nor the requests sent. -/
theorem NewClient_abort_conditions (subscription certPEMBlock keyPEMBlock jarfile : String)
    (s : St σ) :
    (∃ new : List Exchange,
      (NewClient sys subscription certPEMBlock keyPEMBlock jarfile s).2.log = s.log ++ new ∧
      new.length ≤ 5 ∧
      (∀ (i : Nat) (req : Request) (r : Except Error Response), new[i]? = some (req, r) →
        req.Method = if i = 0 then "GET" else "POST") ∧
      (∀ (k : Nat) (req : Request) (e : Error), new[k]? = some (req, Except.error e) →
        (NewClient sys subscription certPEMBlock keyPEMBlock jarfile s).1 = .panic e ∧
        new.length = k + 1)) ∧
    (∀ f : σ → Request → Int → Int,
      (NewClient (sys.withPostStatus f) subscription certPEMBlock keyPEMBlock jarfile s).1 =
        (NewClient sys subscription certPEMBlock keyPEMBlock jarfile s).1 ∧
      (NewClient (sys.withPostStatus f) subscription certPEMBlock keyPEMBlock jarfile s).2.world =
        (NewClient sys subscription certPEMBlock keyPEMBlock jarfile s).2.world ∧
      (NewClient (sys.withPostStatus f) subscription certPEMBlock keyPEMBlock jarfile s).2.stderr =
        (NewClient sys subscription certPEMBlock keyPEMBlock jarfile s).2.stderr ∧
      (NewClient (sys.withPostStatus f) subscription certPEMBlock keyPEMBlock jarfile s).2.sent =
        (NewClient sys subscription certPEMBlock keyPEMBlock jarfile s).2.sent) := by
  refine ⟨NewClient_exchanges sys subscription certPEMBlock keyPEMBlock jarfile s, fun f => ?_⟩
  obtain ⟨⟨hw, herr, hsent⟩, hout⟩ :=
    NewClient_status_independent sys f subscription certPEMBlock keyPEMBlock jarfile s
  refine ⟨?_, hw, herr, hsent⟩
  rcases hout with ⟨a2, a, h2, h1, rfl⟩ | ⟨e, h2, h1⟩
  · rw [h2, h1]
  · rw [h2, h1]

/-- C10 amended, on an example: the second form POST gets no response, although
the first was answered with status 500; `NewClient` panics with the client's
error after the second POST. -/
theorem NewClient_abort_conditions_witness :
    NewClient (demoSys failingScript []) "demo" "cert" "key" "jar" s0 =
      (.panic "connection reset",
        { world := 3, stderr := ["Session expired, logging in...\n"],
          log := [(probeRequest, .ok probeLogin),
            (postIdp, .ok (respOf 500 htmlStep2)),
            (postStep2, .error "connection reset")] }) ∧
    ((∃ new : List Exchange,
      (NewClient (demoSys failingScript []) "demo" "cert" "key" "jar" s0).2.log
        = s0.log ++ new ∧
      new.length ≤ 5 ∧
      (∀ (i : Nat) (req : Request) (r : Except Error Response), new[i]? = some (req, r) →
        req.Method = if i = 0 then "GET" else "POST") ∧
      (∀ (k : Nat) (req : Request) (e : Error), new[k]? = some (req, Except.error e) →
        (NewClient (demoSys failingScript []) "demo" "cert" "key" "jar" s0).1 = .panic e ∧
        new.length = k + 1)) ∧
    (∀ f : Nat → Request → Int → Int,
      (NewClient ((demoSys failingScript []).withPostStatus f) "demo" "cert" "key" "jar" s0).1 =
        (NewClient (demoSys failingScript []) "demo" "cert" "key" "jar" s0).1 ∧
      (NewClient ((demoSys failingScript []).withPostStatus f) "demo" "cert" "key" "jar"
          s0).2.world =
        (NewClient (demoSys failingScript []) "demo" "cert" "key" "jar" s0).2.world ∧
      (NewClient ((demoSys failingScript []).withPostStatus f) "demo" "cert" "key" "jar"
          s0).2.stderr =
        (NewClient (demoSys failingScript []) "demo" "cert" "key" "jar" s0).2.stderr ∧
      (NewClient ((demoSys failingScript []).withPostStatus f) "demo" "cert" "key" "jar"
          s0).2.sent =
        (NewClient (demoSys failingScript []) "demo" "cert" "key" "jar" s0).2.sent)) :=
  ⟨by rfl, NewClient_abort_conditions (demoSys failingScript []) "demo" "cert" "key" "jar" s0⟩

end Proofs

end Portal
